import Mathlib

/-!
Shallow embedding of the Meridian retrieval engine
(src/meridian/engine/vector_store.py, gap_detector.py, query_router.py).

Modelling conventions:
* Python floats are modelled as rationals; the claims under study are
  order/counting/set properties, not floating-point rounding properties.
* The embedding provider is abstracted by a distance oracle: for a fixed
  query text, each stored doc id has a cosine distance (ChromaDB uses the
  hnsw cosine space, so a distance lies in the interval from 0 to 2 for
  unit-normalized vectors).  A ChromaDB collection query returns the n
  stored ids nearest by ascending distance, which chromaQuery models with
  a stable merge sort.
* Python dicts are modelled as association lists with update-in-place
  upsert semantics; Python sets of ids as Finset String.
* Fallible Python code (raise) is modelled with Except.
-/

namespace Meridian

/-- Document partition type; the source keeps one ChromaDB collection per type
(vector_store.py _COLLECTION_NAMES). -/
inductive DocType where
  | KB
  | SCRIPT
  | TICKET
deriving DecidableEq, Repr

/-- Unified document record (data_loader.Document). -/
structure Document where
  doc_id : String
  doc_type : DocType
  title : String
  body : String
  search_text : String
  metadata : List (String × String)
  provenance : List String
deriving DecidableEq, Repr

/-- Lookup in an association-list model of a Python dict (dict.get). -/
def dictGet {κ α : Type} [DecidableEq κ] (m : List (κ × α)) (k : κ) : Option α :=
  (m.find? (fun p => decide (p.1 = k))).map (fun p => p.2)

/-- Update-or-insert in an association-list model of a Python dict
(d[k] = v keeps the position of an existing key, else appends). -/
def dictUpsert {κ α : Type} [DecidableEq κ] (m : List (κ × α)) (k : κ) (v : α) :
    List (κ × α) :=
  if m.any (fun p => decide (p.1 = k)) then
    m.map (fun p => if p.1 = k then (k, v) else p)
  else m ++ [(k, v)]

/-- Python dict comprehension over documents keyed by doc_id: later entries
overwrite earlier ones. -/
def dictOfDocs (docs : List Document) : List (String × Document) :=
  docs.foldl (fun m d => dictUpsert m d.doc_id d) []

/-- State of VectorStore (vector_store.py): per-type ChromaDB collections
(stored doc ids in insertion order), the in-memory document list, the
doc_id to Document map, the built flag, the virtual exclusion set
(_excluded_ids), and a counter of _embed_texts invocations used to express
the no-re-embedding claims. -/
structure VectorStore where
  collections : List (DocType × List String)
  documents : List Document
  doc_index : List (String × Document)
  is_built : Bool
  excluded_ids : Finset String
  embedCalls : Nat
deriving DecidableEq

/-- Collection for a doc type, if one exists (self.collections.get(dtype)). -/
def VectorStore.colOf (st : VectorStore) (t : DocType) : Option (List String) :=
  dictGet st.collections t

/-- Model of chromadb Collection.query: the n stored ids nearest to the query
embedding by ascending cosine distance, where dist gives each stored id's
distance to the query. -/
def chromaQuery (dist : String → ℚ) (col : List String) (n : Nat) :
    List (String × ℚ) :=
  ((col.map (fun id => (id, dist id))).mergeSort
    (fun a b => decide (a.2 ≤ b.2))).take n

/-- Single retrieval result (vector_store.RetrievalResult). -/
structure RetrievalResult where
  doc_id : String
  doc_type : DocType
  title : String
  body : String
  score : ℚ
  metadata : List (String × String)
  provenance : List String
  rank : Nat
deriving DecidableEq, Repr

/-- Result-building loop at the end of VectorStore.retrieve: walk the merged
candidates, skip excluded ids, stop once rank exceeds top_k, skip ids
missing from doc_index, convert distance to similarity and assign
1-indexed ranks. -/
def buildResults (doc_index : List (String × Document)) (all_exclude : Finset String)
    (top_k : Nat) : List (String × ℚ) → Nat → List RetrievalResult
  | [], _ => []
  | (id, d) :: rest, rank =>
    if all_exclude ≠ ∅ ∧ id ∈ all_exclude then
      buildResults doc_index all_exclude top_k rest rank
    else if top_k < rank then []
    else
      match dictGet doc_index id with
      | none => buildResults doc_index all_exclude top_k rest rank
      | some doc =>
        { doc_id := doc.doc_id
          doc_type := doc.doc_type
          title := doc.title
          body := if 2000 < doc.body.length then doc.body.take 2000 else doc.body
          score := 1 - d
          metadata := doc.metadata
          provenance := doc.provenance
          rank := rank } :: buildResults doc_index all_exclude top_k rest (rank + 1)

/-- Python truthiness fallback for the doc_types argument: None or an empty
list both fall back to all collection keys. -/
def targetTypes (st : VectorStore) (doc_types : Option (List DocType)) : List DocType :=
  match doc_types with
  | some ts => if ts = [] then st.collections.map (fun p => p.1) else ts
  | none => st.collections.map (fun p => p.1)

/-- Candidate-gathering loop body of VectorStore.retrieve for one target
collection: skip a missing or empty collection, over-fetch top_k plus the
exclusion-set size (capped at the collection size), and append the fetched
(id, distance) pairs. -/
def gatherStep (st : VectorStore) (dist : String → ℚ) (all_exclude : Finset String)
    (top_k : Nat) (acc : List (String × ℚ)) (dtype : DocType) : List (String × ℚ) :=
  match st.colOf dtype with
  | none => acc
  | some col =>
    if col.length = 0 then acc
    else
      let request_k := if all_exclude ≠ ∅ then top_k + all_exclude.card else top_k
      let request_k := min request_k col.length
      if request_k = 0 then acc
      else acc ++ chromaQuery dist col request_k

/-- Value computed by a successful VectorStore.retrieve call: gather and merge
the per-collection candidates, sort ascending by distance, and build the
ranked result list. -/
def retrieveValue (st : VectorStore) (dist : String → ℚ) (top_k : Nat)
    (doc_types : Option (List DocType)) (exclude_ids : Finset String) :
    List RetrievalResult :=
  buildResults st.doc_index (exclude_ids ∪ st.excluded_ids) top_k
    (((targetTypes st doc_types).foldl
        (gatherStep st dist (exclude_ids ∪ st.excluded_ids) top_k) []).mergeSort
      (fun a b => decide (a.2 ≤ b.2))) 1

/-- Core retrieval (VectorStore.retrieve): embed the query (abstracted by the
distance oracle), over-fetch top_k plus the exclusion-set size from each
target collection, merge candidates by ascending distance, filter
exclusions and return at most top_k results with 1-indexed ranks. -/
def VectorStore.retrieve (st : VectorStore) (dist : String → ℚ) (top_k : Nat)
    (doc_types : Option (List DocType)) (exclude_ids : Finset String) :
    Except String (List RetrievalResult) :=
  if st.is_built = false then
    .error "Index not built. Call build_index() first."
  else
    .ok (retrieveValue st dist top_k doc_types exclude_ids)

/-- Best-match fold inside VectorStore.similarity_to_corpus: scan the fetched
candidates of one collection, keeping the closest non-excluded id. -/
def bestFold (excluded : Finset String) (rs : List (String × ℚ)) (best : String × ℚ) :
    String × ℚ :=
  rs.foldl (fun b p => if p.1 ∉ excluded ∧ p.2 < b.2 then p else b) best

/-- Per-collection body of the best-match loop in
VectorStore.similarity_to_corpus: skip a missing or empty collection,
over-fetch one plus the exclusion-set size (capped at the collection
size), and keep the closest non-excluded candidate seen so far. -/
def simStep (st : VectorStore) (dist : String → ℚ) (best : String × ℚ)
    (dtype : DocType) : String × ℚ :=
  match st.colOf dtype with
  | none => best
  | some col =>
    if col.length = 0 then best
    else
      let n_fetch := if st.excluded_ids ≠ ∅ then 1 + st.excluded_ids.card else 1
      let n_fetch := min n_fetch col.length
      if n_fetch = 0 then best
      else bestFold st.excluded_ids (chromaQuery dist col n_fetch) best

/-- Corpus similarity (VectorStore.similarity_to_corpus): best
(similarity, doc_id) of the text against the target partitions, skipping
virtually excluded ids; similarity is 1 minus the best cosine distance, or
(0, empty string) when nothing matches.  The initial best distance is 2,
the maximal cosine distance. -/
def VectorStore.similarity_to_corpus (st : VectorStore) (dist : String → ℚ)
    (doc_types : Option (List DocType)) : Except String (ℚ × String) :=
  if st.is_built = false then
    .error "Index not built. Call build_index() first."
  else
    if ((targetTypes st doc_types).foldl (simStep st dist) ("", 2)).1 = "" then
      .ok (0, "")
    else
      .ok (1 - ((targetTypes st doc_types).foldl (simStep st dist) ("", 2)).2,
        ((targetTypes st doc_types).foldl (simStep st dist) ("", 2)).1)

/-- Virtual removal (VectorStore.remove_documents): add ids to the exclusion
set and filter the in-memory structures; the stored vectors are untouched. -/
def VectorStore.remove_documents (st : VectorStore) (doc_ids : Finset String) :
    VectorStore :=
  let documents := st.documents.filter (fun d => decide (d.doc_id ∉ doc_ids))
  { st with
    excluded_ids := st.excluded_ids ∪ doc_ids
    documents := documents
    doc_index := dictOfDocs documents }

/-- Ordered grouping of documents by doc_type (the by_type dict built with
setdefault inside VectorStore.add_documents; keys in first-seen order). -/
def groupByDocType (docs : List Document) : List (DocType × List Document) :=
  docs.foldl (fun acc d =>
    if acc.any (fun p => decide (p.1 = d.doc_type)) then
      acc.map (fun p => if p.1 = d.doc_type then (p.1, p.2 ++ [d]) else p)
    else acc ++ [(d.doc_type, [d])]) []

/-- Incremental add (VectorStore.add_documents): ids already in the exclusion
set are restored (cleared from the set, no embedding); truly new docs are
grouped by type, embedded once per group whose collection exists, and
appended to that collection; in-memory structures always take the new
docs. -/
def VectorStore.add_documents (st : VectorStore) (new_docs : List Document) :
    VectorStore :=
  let restored := new_docs.filter (fun d => decide (d.doc_id ∈ st.excluded_ids))
  let truly_new := new_docs.filter (fun d => decide (d.doc_id ∉ st.excluded_ids))
  let excluded1 :=
    if restored ≠ [] then
      st.excluded_ids \ (restored.map (fun d => d.doc_id)).toFinset
    else st.excluded_ids
  let st1 := (groupByDocType truly_new).foldl (fun s p =>
      match s.colOf p.1 with
      | none => s
      | some _ =>
        { s with
          embedCalls := s.embedCalls + 1
          collections := s.collections.map (fun q =>
            if q.1 = p.1 then (q.1, q.2 ++ p.2.map (fun d => d.doc_id)) else q) })
    { st with excluded_ids := excluded1 }
  { st1 with
    documents := st1.documents ++ new_docs
    doc_index := new_docs.foldl (fun m d => dictUpsert m d.doc_id d) st1.doc_index }

/-- Constant-time lookup (VectorStore.get_document): dict.get, an explicit
absent value rather than an error. -/
def VectorStore.get_document (st : VectorStore) (doc_id : String) : Option Document :=
  dictGet st.doc_index doc_id

/-- Resolved-ticket row as consumed by GapDetector.check_ticket: the fields it
extracts from the pandas Series, already through their str/int coercions. -/
structure Ticket where
  resolution : String
  subject : String
  description : String
  tier : Int
  module : String
  category : String
  script_id : Option String
  conversation_id : Option String
deriving DecidableEq, Repr

/-- Slice of data_loader.DataStore used by the gap detector: the unified
corpus and the Ticket_Number to ticket map (dict, insertion ordered). -/
structure DataStore where
  documents : List Document
  ticket_by_number : List (String × Ticket)
deriving DecidableEq, Repr

/-- Per-ticket gap detection outcome (gap_detector.GapDetectionResult). -/
structure GapDetectionResult where
  ticket_number : String
  is_gap : Bool
  resolution_similarity : ℚ
  best_matching_kb_id : String
  problem_similarity : ℚ
  best_matching_kb_for_problem : String
  resolution_text : String
  description_text : String
  tier : Int
  module : String
  category : String
  script_id : Option String
  conversation_id : Option String
deriving DecidableEq, Repr

/-- Configuration of gap_detector.GapDetector (the vector store it works on is
threaded explicitly through the operations, since Python mutates it in
place). -/
structure GapDetector where
  datastore : DataStore
  threshold : ℚ
deriving DecidableEq, Repr

/-- Single-ticket gap check (GapDetector.check_ticket): an unknown ticket
number is a hard error; otherwise compare the resolution text and the
subject-plus-description text against the KB partition, and flag a gap
when the resolution similarity is below the threshold.  The oracle d gives
the cosine distance of each stored doc id to a query text. -/
def GapDetector.check_ticket (gd : GapDetector) (st : VectorStore)
    (d : String → String → ℚ) (ticket_number : String) :
    Except String GapDetectionResult :=
  match dictGet gd.datastore.ticket_by_number ticket_number with
  | none => .error ("Ticket " ++ ticket_number ++ " not found")
  | some ticket =>
    match st.similarity_to_corpus (fun id => d id ticket.resolution)
        (some [DocType.KB]) with
    | .error e => .error e
    | .ok r1 =>
      match st.similarity_to_corpus
          (fun id => d id (ticket.subject ++ " " ++ ticket.description))
          (some [DocType.KB]) with
      | .error e => .error e
      | .ok r2 =>
        .ok { ticket_number := ticket_number
              is_gap := decide (r1.1 < gd.threshold)
              resolution_similarity := r1.1
              best_matching_kb_id := r1.2
              problem_similarity := r2.1
              best_matching_kb_for_problem := r2.2
              resolution_text := ticket.resolution
              description_text := ticket.subject ++ " " ++ ticket.description
              tier := ticket.tier
              module := ticket.module
              category := ticket.category
              script_id := ticket.script_id
              conversation_id := ticket.conversation_id }

/-- Full scan (GapDetector.scan_all_tickets): check every known ticket, then
sort ascending by resolution similarity (worst gaps first; Python sort is
stable). -/
def GapDetector.scan_all_tickets (gd : GapDetector) (st : VectorStore)
    (d : String → String → ℚ) : Except String (List GapDetectionResult) := do
  let results ← (gd.datastore.ticket_by_number.map (fun p => p.1)).mapM
    (gd.check_ticket st d)
  return results.mergeSort
    (fun a b => decide (a.resolution_similarity ≤ b.resolution_similarity))

/-- Emerging-issue record (the dict built by
GapDetector.detect_emerging_issues). -/
structure EmergingIssue where
  category : String
  module : String
  ticket_count : Nat
  ticket_numbers : List String
  avg_similarity : ℚ
  sample_resolution : String
deriving DecidableEq, Repr

/-- Single step of the ordered clustering by (category, module): append the
gap to an existing cluster for its key, or open a new cluster at the end
(defaultdict insertion semantics). -/
def groupStep (acc : List ((String × String) × List GapDetectionResult))
    (g : GapDetectionResult) : List ((String × String) × List GapDetectionResult) :=
  if acc.any (fun p => decide (p.1 = (g.category, g.module))) then
    acc.map (fun p => if p.1 = (g.category, g.module) then (p.1, p.2 ++ [g]) else p)
  else acc ++ [((g.category, g.module), [g])]

/-- Ordered clustering by the exact (category, module) pair (the defaultdict
inside detect_emerging_issues; keys in first-seen order, members in scan
order). -/
def groupGaps (gaps : List GapDetectionResult) :
    List ((String × String) × List GapDetectionResult) :=
  gaps.foldl groupStep []

/-- Emerging issues in discovery order, before the final sort: one record per
(category, module) cluster of at least min_cluster_size gaps, carrying the
ticket count, all ticket numbers, the average resolution similarity and a
200-character excerpt of the first-seen member resolution. -/
def emergingIssuesUnsorted (gap_results : List GapDetectionResult)
    (min_cluster_size : Nat) : List EmergingIssue :=
  let gaps := gap_results.filter (fun r => r.is_gap)
  (groupGaps gaps).filterMap (fun p =>
    if min_cluster_size ≤ p.2.length then
      some { category := p.1.1
             module := p.1.2
             ticket_count := p.2.length
             ticket_numbers := p.2.map (fun g => g.ticket_number)
             avg_similarity :=
               (p.2.map (fun g => g.resolution_similarity)).sum / (p.2.length : ℚ)
             sample_resolution :=
               (p.2.head?.elim "" (fun g => g.resolution_text.take 200)) }
    else none)

/-- Emerging-issue clustering (GapDetector.detect_emerging_issues): keep only
gap results, cluster by (category, module), drop clusters below
min_cluster_size, and sort descending by ticket count (Python sort with
reverse=True is stable, so ties keep discovery order). -/
def detect_emerging_issues (gap_results : List GapDetectionResult)
    (min_cluster_size : Nat) : List EmergingIssue :=
  (emergingIssuesUnsorted gap_results min_cluster_size).mergeSort
    (fun a b => decide (b.ticket_count ≤ a.ticket_count))

/-- Per-tier gap tally (the defaultdict(int) keyed by tier inside
before_after_comparison; keys in first-seen order). -/
def tallyByTier (rs : List GapDetectionResult) : List (Int × Nat) :=
  rs.foldl (fun acc r =>
    if r.is_gap then
      if acc.any (fun p => decide (p.1 = r.tier)) then
        acc.map (fun p => if p.1 = r.tier then (p.1, p.2 + 1) else p)
      else acc ++ [(r.tier, 1)]
    else acc) []

/-- One side of the before/after snapshot. -/
structure ComparisonSide where
  total_gaps : Nat
  avg_resolution_similarity : ℚ
  gaps_by_tier : List (Int × Nat)
deriving DecidableEq, Repr

/-- Improvement metrics of the before/after protocol. -/
structure Improvement where
  gaps_closed : Int
  similarity_lift : ℚ
  pct_improvement : ℚ
deriving DecidableEq, Repr

/-- Return value of before_after_comparison. -/
structure Comparison where
  before_learning : ComparisonSide
  after_learning : ComparisonSide
  improvement : Improvement
deriving DecidableEq, Repr

/-- Synthetic KB article ids of the datastore: KB documents whose metadata
marks them as synthesized from a ticket (step 1 of
before_after_comparison). -/
def syntheticKbIds (ds : DataStore) : Finset String :=
  ((ds.documents.filter (fun doc =>
      decide (doc.doc_type = DocType.KB) &&
      decide (dictGet doc.metadata "source_type" = some "SYNTH_FROM_TICKET"))).map
    (fun doc => doc.doc_id)).toFinset

/-- Before/after evaluation protocol (GapDetector.before_after_comparison):
scan with the synthetic KB articles present, virtually remove them, scan
again, then add them back, returning the comparison metrics and the final
store.  Each scan performs embedding-provider calls which may raise; the
two Boolean flags inject such a provider failure into the first or the
second scan.  The Python body has no try/finally, so an exception
propagates with the store left exactly as it was at that point, which the
error branches model by returning the current store in the error value. -/
def GapDetector.before_after_comparison (gd : GapDetector) (st : VectorStore)
    (d : String → String → ℚ)
    (provider_fails_after_scan provider_fails_before_scan : Bool) :
    Except VectorStore (VectorStore × Comparison) :=
  let synthetic_kb_ids := syntheticKbIds gd.datastore
  if provider_fails_after_scan then .error st
  else
    match gd.scan_all_tickets st d with
    | .error _ => .error st
    | .ok after_results =>
      let after_gaps := after_results.countP (fun r => r.is_gap)
      let after_avg_sim :=
        (after_results.map (fun r => r.resolution_similarity)).sum /
          (after_results.length : ℚ)
      let after_by_tier := tallyByTier after_results
      let synthetic_docs := gd.datastore.documents.filter
        (fun doc => decide (doc.doc_id ∈ synthetic_kb_ids))
      let st1 := st.remove_documents synthetic_kb_ids
      if provider_fails_before_scan then .error st1
      else
        match gd.scan_all_tickets st1 d with
        | .error _ => .error st1
        | .ok before_results =>
          let before_gaps := before_results.countP (fun r => r.is_gap)
          let before_avg_sim :=
            (before_results.map (fun r => r.resolution_similarity)).sum /
              (before_results.length : ℚ)
          let before_by_tier := tallyByTier before_results
          let st2 := st1.add_documents synthetic_docs
          let gaps_closed : Int := (before_gaps : Int) - (after_gaps : Int)
          let similarity_lift := after_avg_sim - before_avg_sim
          let pct_improvement : ℚ :=
            if 0 < before_gaps then
              (gaps_closed : ℚ) / (before_gaps : ℚ) * 100
            else 0
          .ok (st2,
            { before_learning :=
                { total_gaps := before_gaps
                  avg_resolution_similarity := before_avg_sim
                  gaps_by_tier := before_by_tier }
              after_learning :=
                { total_gaps := after_gaps
                  avg_resolution_similarity := after_avg_sim
                  gaps_by_tier := after_by_tier }
              improvement :=
                { gaps_closed := gaps_closed
                  similarity_lift := similarity_lift
                  pct_improvement := pct_improvement } })

/-- Keyword signal list for the SCRIPT partition (query_router.py). -/
def SCRIPT_SIGNALS : List String :=
  ["script", "backend", "run query", "data fix", "sql", "database",
   "backend fix", "data sync", "batch", "execute", "stored procedure",
   "update query", "sync issue", "data inconsistency",
   "advance property date", "date advance", "tracs", "hap", "voucher",
   "certification", "move-in", "move-out", "move in", "move out",
   "tier 3", "escalat", "backend data", "remediation",
   "workflow block", "data-fix", "backend correction"]

/-- Keyword signal list for the KB partition (query_router.py). -/
def KB_SIGNALS : List String :=
  ["how to", "how do i", "steps to", "guide", "walkthrough", "tutorial",
   "instructions", "process", "configure", "setup", "set up",
   "edit", "update", "change", "navigate", "where do i", "screen",
   "checklist", "optional", "required", "explain how",
   "what is the process", "can you explain"]

/-- Keyword signal list for the TICKET partition (query_router.py). -/
def TICKET_SIGNALS : List String :=
  ["resolution", "what was done", "similar case", "past case",
   "how was it resolved", "previous ticket", "what fixed",
   "resolved before", "prior incident", "what was the resolution",
   "in similar cases", "site:"]

/-- Number of signals occurring as substrings of the lowercased query
(the sum-of-hits loops in classify_query). -/
def countHits (signals : List String) (query_lower : String) : Nat :=
  (signals.filter (fun signal =>
    decide (signal.toList <:+: query_lower.toList))).length

/-- Per-partition retrieval (VectorStore.retrieve_by_partitions): top_k_per
results from each of the three partitions independently, reusing one query
embedding; keys in the source iteration order KB, SCRIPT, TICKET. -/
def VectorStore.retrieve_by_partitions (st : VectorStore) (dist : String → ℚ)
    (top_k_per : Nat) : Except String (List (DocType × List RetrievalResult)) :=
  [DocType.KB, DocType.SCRIPT, DocType.TICKET].mapM (fun t =>
    (st.retrieve dist top_k_per (some [t]) ∅).map (fun rs => (t, rs)))

/-- Top-1 score of a retrieval result list, 0.0 when empty
(results[0].score if results else 0.0 in classify_query). -/
def headScore (rs : List RetrievalResult) : ℚ :=
  match rs with
  | r :: _ => r.score
  | [] => 0

/-- Query classification (query_router.classify_query): combine keyword hit
scores with per-partition top-1 retrieval similarity as
0.4 times keyword plus 0.6 times retrieval, and pick the partition with
the maximal final score, breaking ties in the order SCRIPT, KB, TICKET. -/
def classify_query (query : String) (st : VectorStore) (dist : String → ℚ) :
    Except String (DocType × List (DocType × ℚ)) :=
  let query_lower := query.toLower
  let kwS : ℚ := min ((countHits SCRIPT_SIGNALS query_lower : ℚ) / 3) 1
  let kwK : ℚ := min ((countHits KB_SIGNALS query_lower : ℚ) / 3) 1
  let kwT : ℚ := min ((countHits TICKET_SIGNALS query_lower : ℚ) / 3) 1
  match st.retrieve_by_partitions dist 1 with
  | .error e => .error e
  | .ok partition_results =>
    let rScore := fun t => headScore ((dictGet partition_results t).getD [])
    let fS := kwS * 0.4 + rScore DocType.SCRIPT * 0.6
    let fK := kwK * 0.4 + rScore DocType.KB * 0.6
    let fT := kwT * 0.4 + rScore DocType.TICKET * 0.6
    let final_scores := [(DocType.SCRIPT, fS), (DocType.KB, fK), (DocType.TICKET, fT)]
    let max_score := max fS (max fK fT)
    let predicted :=
      if fS = max_score then DocType.SCRIPT
      else if fK = max_score then DocType.KB
      else DocType.TICKET
    .ok (predicted, final_scores)

/-! Helper lemmas about the dict model. -/

/-- Well-formed doc index: every entry stores a document under its own id,
which holds for every index the source ever builds. -/
def WfIndex (m : List (String × Document)) : Prop :=
  ∀ p ∈ m, p.2.doc_id = p.1

theorem dictGet_eq_none {κ α : Type} [DecidableEq κ] {m : List (κ × α)} {k : κ}
    (h : ∀ p ∈ m, p.1 ≠ k) : dictGet m k = none := by
  simp only [dictGet, Option.map_eq_none', List.find?_eq_none, decide_eq_true_eq]
  exact h

theorem dictGet_mem {κ α : Type} [DecidableEq κ] {m : List (κ × α)} {k : κ} {a : α}
    (h : dictGet m k = some a) : (k, a) ∈ m := by
  simp only [dictGet, Option.map_eq_some'] at h
  obtain ⟨p, hp, hpa⟩ := h
  have h1 := List.find?_some hp
  have h2 := List.mem_of_find?_eq_some hp
  simp only [decide_eq_true_eq] at h1
  have : p = (k, a) := by
    cases p
    simp_all
  rw [this] at h2
  exact h2

theorem dictGet_wf {m : List (String × Document)} {k : String} {doc : Document}
    (hwf : WfIndex m) (h : dictGet m k = some doc) : doc.doc_id = k :=
  hwf (k, doc) (dictGet_mem h)

theorem dictUpsert_wf {m : List (String × Document)} (hwf : WfIndex m)
    (d : Document) : WfIndex (dictUpsert m d.doc_id d) := by
  intro p hp
  simp only [dictUpsert] at hp
  split at hp
  · rcases List.mem_map.mp hp with ⟨q, hq, hqp⟩
    by_cases hqd : q.1 = d.doc_id
    · rw [if_pos hqd] at hqp
      rw [← hqp]
    · rw [if_neg hqd] at hqp
      rw [← hqp]
      exact hwf q hq
  · rcases List.mem_append.mp hp with hq | hq
    · exact hwf p hq
    · simp only [List.mem_singleton] at hq
      rw [hq]

theorem foldl_dictUpsert_wf {m : List (String × Document)} (hwf : WfIndex m)
    (docs : List Document) :
    WfIndex (docs.foldl (fun m d => dictUpsert m d.doc_id d) m) := by
  induction docs generalizing m with
  | nil => exact hwf
  | cons d docs ih => exact ih (dictUpsert_wf hwf d)

theorem dictOfDocs_wf (docs : List Document) : WfIndex (dictOfDocs docs) :=
  foldl_dictUpsert_wf (by intro p hp; simp at hp) docs

/-! Lemmas about the result-building loop of retrieve. -/

theorem mem_buildResults {idx : List (String × Document)} {excl : Finset String}
    {k : Nat} (hwf : WfIndex idx) :
    ∀ {l : List (String × ℚ)} {rank : Nat} {r : RetrievalResult},
      r ∈ buildResults idx excl k l rank →
      r.doc_id ∉ excl ∧ ∃ p, p ∈ l ∧ p.1 = r.doc_id ∧ r.score = 1 - p.2 := by
  intro l
  induction l with
  | nil =>
    intro rank r hr
    simp [buildResults] at hr
  | cons hd tl ih =>
    intro rank r hr
    obtain ⟨id, dd⟩ := hd
    rw [buildResults] at hr
    by_cases hex : excl ≠ ∅ ∧ id ∈ excl
    · rw [if_pos hex] at hr
      obtain ⟨h1, p, hp, hpe, hps⟩ := ih hr
      exact ⟨h1, p, List.mem_cons_of_mem _ hp, hpe, hps⟩
    · rw [if_neg hex] at hr
      by_cases hrk : k < rank
      · rw [if_pos hrk] at hr
        simp at hr
      · rw [if_neg hrk] at hr
        cases hget : dictGet idx id with
        | none =>
          rw [hget] at hr
          obtain ⟨h1, p, hp, hpe, hps⟩ := ih hr
          exact ⟨h1, p, List.mem_cons_of_mem _ hp, hpe, hps⟩
        | some doc =>
          rw [hget] at hr
          have hid : id ∉ excl := by
            by_cases hemp : excl = ∅
            · rw [hemp]; exact Finset.not_mem_empty id
            · intro hmem
              exact hex ⟨hemp, hmem⟩
          rcases List.mem_cons.mp hr with heq | hmem
          · have hdocid : doc.doc_id = id := dictGet_wf hwf hget
            subst heq
            refine ⟨by simpa [hdocid] using hid, (id, dd), List.mem_cons_self _ _, ?_, ?_⟩
            · simpa using hdocid.symm
            · rfl
          · obtain ⟨h1, p, hp, hpe, hps⟩ := ih hmem
            exact ⟨h1, p, List.mem_cons_of_mem _ hp, hpe, hps⟩

/-! Lemmas about the best-match loop of similarity_to_corpus. -/

theorem bestFold_inv (excluded : Finset String) :
    ∀ (rs : List (String × ℚ)) (b : String × ℚ),
      (b.1 = "" ∨ b.1 ∉ excluded) →
      ((bestFold excluded rs b).1 = "" ∨ (bestFold excluded rs b).1 ∉ excluded) := by
  intro rs
  induction rs with
  | nil =>
    intro b hb
    simpa [bestFold] using hb
  | cons p rs ih =>
    intro b hb
    rw [show bestFold excluded (p :: rs) b =
      bestFold excluded rs (if p.1 ∉ excluded ∧ p.2 < b.2 then p else b) from rfl]
    by_cases h : p.1 ∉ excluded ∧ p.2 < b.2
    · rw [if_pos h]
      exact ih _ (Or.inr h.1)
    · rw [if_neg h]
      exact ih _ hb

theorem simStep_inv (st : VectorStore) (dist : String → ℚ) (b : String × ℚ)
    (t : DocType) (hb : b.1 = "" ∨ b.1 ∉ st.excluded_ids) :
    ((simStep st dist b t).1 = "" ∨ (simStep st dist b t).1 ∉ st.excluded_ids) := by
  rw [simStep]
  cases st.colOf t with
  | none => exact hb
  | some col =>
    dsimp only
    by_cases hlen : col.length = 0
    · rw [if_pos hlen]
      exact hb
    · rw [if_neg hlen]
      split <;> split
      · exact hb
      · exact bestFold_inv st.excluded_ids _ b hb
      · exact hb
      · exact bestFold_inv st.excluded_ids _ b hb

theorem similarity_best_not_excluded (st : VectorStore) (dist : String → ℚ)
    (dts : Option (List DocType)) {s : ℚ} {bid : String}
    (h : st.similarity_to_corpus dist dts = .ok (s, bid)) :
    bid = "" ∨ bid ∉ st.excluded_ids := by
  rw [VectorStore.similarity_to_corpus] at h
  by_cases hb : st.is_built = false
  · rw [if_pos hb] at h
    exact absurd h (by simp)
  · rw [if_neg hb] at h
    have key : ∀ (ts : List DocType) (acc : String × ℚ),
        (acc.1 = "" ∨ acc.1 ∉ st.excluded_ids) →
        ((ts.foldl (simStep st dist) acc).1 = "" ∨
          (ts.foldl (simStep st dist) acc).1 ∉ st.excluded_ids) := by
      intro ts
      induction ts with
      | nil => intro acc hacc; exact hacc
      | cons t ts ih =>
        intro acc hacc
        rw [List.foldl_cons]
        exact ih _ (simStep_inv st dist acc t hacc)
    have hbest := key (targetTypes st dts) ("", 2) (Or.inl rfl)
    have h2 : (if ((targetTypes st dts).foldl (simStep st dist) ("", 2)).1 = "" then
        (Except.ok (0, "") : Except String (ℚ × String))
      else .ok (1 - ((targetTypes st dts).foldl (simStep st dist) ("", 2)).2,
        ((targetTypes st dts).foldl (simStep st dist) ("", 2)).1)) = .ok (s, bid) := h
    split at h2
    · simp only [Except.ok.injEq, Prod.mk.injEq] at h2
      exact Or.inl h2.2.symm
    · simp only [Except.ok.injEq, Prod.mk.injEq] at h2
      rw [h2.2] at hbest
      exact hbest

theorem dictGet_map_modify {κ α : Type} [DecidableEq κ] (m : List (κ × α)) (k : κ)
    (f : α → α) :
    dictGet (m.map (fun q => if q.1 = k then (q.1, f q.2) else q)) k =
      (dictGet m k).map f := by
  induction m with
  | nil => rfl
  | cons p m ih =>
    simp only [dictGet] at ih ⊢
    by_cases hp : p.1 = k
    · rw [List.map_cons, if_pos hp, List.find?_cons_of_pos _ (by simp [hp]),
        List.find?_cons_of_pos _ (by simp [hp])]
      simp
    · rw [List.map_cons, if_neg hp, List.find?_cons_of_neg _ (by simp [hp]),
        List.find?_cons_of_neg _ (by simp [hp])]
      exact ih

/-! Concrete fixtures shared by the witness theorems. -/

def docKB1 : Document :=
  { doc_id := "KB-1", doc_type := DocType.KB, title := "t1", body := "b1"
    search_text := "s1", metadata := [], provenance := [] }

def docKB2 : Document :=
  { doc_id := "KB-2", doc_type := DocType.KB, title := "t2", body := "b2"
    search_text := "s2", metadata := [], provenance := [] }

def docSC1 : Document :=
  { doc_id := "SC-1", doc_type := DocType.SCRIPT, title := "t3", body := "b3"
    search_text := "s3", metadata := [], provenance := [] }

def sampleStore : VectorStore :=
  { collections := [(DocType.KB, ["KB-1", "KB-2"]), (DocType.SCRIPT, ["SC-1"])]
    documents := [docKB1, docKB2, docSC1]
    doc_index := dictOfDocs [docKB1, docKB2, docSC1]
    is_built := true
    excluded_ids := ∅
    embedCalls := 0 }

def sampleDist : String → ℚ :=
  fun id => if id = "KB-1" then 0 else if id = "KB-2" then 1/4 else 1/2

def gdEmpty : GapDetector :=
  { datastore := { documents := [], ticket_by_number := [] }, threshold := 2/5 }

/-! Claim C1: removal is virtual, yet excluded ids never surface in queries. -/

/-- C1: after remove(S) the vectors stay physically stored (the partition
collections are untouched), yet retrieve never returns a doc_id in S nor
one in the caller-supplied exclude_ids, and similarity_to_corpus never
reports a best match in S. -/
theorem remove_excludes_from_all_queries (st : VectorStore) (S : Finset String)
    (dist dist2 : String → ℚ) (top_k : Nat) (dts dts2 : Option (List DocType))
    (exclude_ids : Finset String) :
    (st.remove_documents S).collections = st.collections ∧
    (∀ res, (st.remove_documents S).retrieve dist top_k dts exclude_ids = .ok res →
      ∀ r ∈ res, r.doc_id ∉ S ∧ r.doc_id ∉ exclude_ids) ∧
    (∀ q bid,
      (st.remove_documents S).similarity_to_corpus dist2 dts2 = .ok (q, bid) →
      "" ∉ S → bid ∉ S) := by
  refine ⟨rfl, ?_, ?_⟩
  · intro res hres r hr
    rw [VectorStore.retrieve] at hres
    by_cases hb : (st.remove_documents S).is_built = false
    · rw [if_pos hb] at hres
      exact absurd hres (by simp)
    · rw [if_neg hb] at hres
      have hwf : WfIndex (st.remove_documents S).doc_index := dictOfDocs_wf _
      simp only [Except.ok.injEq] at hres
      rw [← hres] at hr
      have hmem := (mem_buildResults hwf hr).1
      have hsub : S ⊆ exclude_ids ∪ (st.remove_documents S).excluded_ids := by
        intro x hx
        exact Finset.mem_union_right _ (Finset.mem_union_right _ hx)
      have hsub2 : exclude_ids ⊆ exclude_ids ∪ (st.remove_documents S).excluded_ids :=
        Finset.subset_union_left
      exact ⟨fun hin => hmem (hsub hin), fun hin => hmem (hsub2 hin)⟩
  · intro q bid h hze
    rcases similarity_best_not_excluded _ dist2 dts2 h with hbid | hbid
    · rw [hbid]
      exact hze
    · intro hin
      exact hbid (Finset.mem_union_right _ hin)

/-- C1 witness: a concrete removal followed by a concrete partition query; the
removed id stays in the collection but is absent from the results. -/
theorem remove_excludes_witness :
    (sampleStore.remove_documents {"KB-1"}).colOf DocType.KB = some ["KB-1", "KB-2"] ∧
    ∃ res, (sampleStore.remove_documents {"KB-1"}).retrieve sampleDist 5
        (some [DocType.KB]) ∅ = .ok res ∧
      res ≠ [] ∧
      ∀ r ∈ res, r.doc_id ∉ ({"KB-1"} : Finset String) ∧ r.doc_id ∉ (∅ : Finset String) := by
  have hremove : sampleStore.remove_documents {"KB-1"} =
      { collections := [(DocType.KB, ["KB-1", "KB-2"]), (DocType.SCRIPT, ["SC-1"])]
        documents := [docKB2, docSC1]
        doc_index := [("KB-2", docKB2), ("SC-1", docSC1)]
        is_built := true
        excluded_ids := {"KB-1"}
        embedCalls := 0 } := by decide
  have heq : (sampleStore.remove_documents {"KB-1"}).retrieve sampleDist 5
      (some [DocType.KB]) ∅ = .ok
        [{ doc_id := "KB-2", doc_type := DocType.KB, title := "t2", body := "b2"
           score := 3/4, metadata := [], provenance := [], rank := 1 }] := by
    rw [hremove]
    simp [VectorStore.retrieve, retrieveValue, targetTypes, gatherStep,
      VectorStore.colOf, dictGet, chromaQuery, buildResults, sampleDist, docKB2,
      List.mergeSort, List.merge, List.find?,
      (by decide : ¬ (2000 < "b2".length))]
    norm_num
  refine ⟨?_, _, heq, by simp, ?_⟩
  · simp [sampleStore, VectorStore.remove_documents, VectorStore.colOf, dictGet]
  · exact fun r hr =>
      (remove_excludes_from_all_queries sampleStore {"KB-1"} sampleDist sampleDist 5
        (some [DocType.KB]) (some [DocType.KB]) ∅).2.1 _ heq r hr

/-! Claim C9: get_document is an optional lookup, check_ticket a hard error. -/

/-- C9: a doc_id with no entry yields the explicit absent value none from
get_document (a total function, never an error), while a ticket number
with no entry makes check_ticket fail hard with an error value. -/
theorem get_document_absent_check_ticket_raises (st : VectorStore)
    (gd : GapDetector) (d : String → String → ℚ) (doc_id num : String)
    (h1 : ∀ p ∈ st.doc_index, p.1 ≠ doc_id)
    (h2 : ∀ p ∈ gd.datastore.ticket_by_number, p.1 ≠ num) :
    st.get_document doc_id = none ∧
    gd.check_ticket st d num = .error ("Ticket " ++ num ++ " not found") := by
  constructor
  · exact dictGet_eq_none h1
  · rw [GapDetector.check_ticket, dictGet_eq_none h2]

/-- C9 witness: concrete absent doc_id and absent ticket number. -/
theorem get_document_check_ticket_witness :
    sampleStore.get_document "NOPE" = none ∧
    gdEmpty.check_ticket sampleStore (fun _ _ => 0) "T-404" =
      .error ("Ticket " ++ "T-404" ++ " not found") :=
  get_document_absent_check_ticket_raises sampleStore gdEmpty (fun _ _ => 0)
    "NOPE" "T-404" (by decide) (by decide)

/-! Claim C10: add_documents does not preserve id uniqueness. -/

/-- C10: adding a document whose id is already indexed (and not excluded) is
treated as truly new: one extra embedding call, the id appended a second
time to its partition collection, and a second copy appended to the
in-memory document list, so the id now occurs twice. -/
theorem add_existing_doc_duplicates_id (st : VectorStore) (d0 : Document)
    (col : List String)
    (hnex : d0.doc_id ∉ st.excluded_ids)
    (hcol : st.colOf d0.doc_type = some col)
    (hcount : st.documents.countP (fun doc => decide (doc.doc_id = d0.doc_id)) = 1) :
    (st.add_documents [d0]).documents.countP
        (fun doc => decide (doc.doc_id = d0.doc_id)) = 2 ∧
    (st.add_documents [d0]).embedCalls = st.embedCalls + 1 ∧
    (st.add_documents [d0]).colOf d0.doc_type = some (col ++ [d0.doc_id]) := by
  have hfilter1 : [d0].filter (fun d => decide (d.doc_id ∈ st.excluded_ids)) = [] := by
    simp [List.filter, hnex]
  have hfilter2 : [d0].filter (fun d => decide (d.doc_id ∉ st.excluded_ids)) = [d0] := by
    simp [List.filter, hnex]
  have hgroup : groupByDocType [d0] = [(d0.doc_type, [d0])] := by
    simp [groupByDocType]
  rw [VectorStore.add_documents, hfilter1, hfilter2, hgroup]
  simp only [ne_eq, not_true_eq_false, if_false, ite_self, if_neg (by simp : ¬(([] : List Document) ≠ []))]
  have hcol2 : ({ st with excluded_ids := st.excluded_ids } : VectorStore).colOf d0.doc_type = some col := hcol
  rw [List.foldl_cons, List.foldl_nil, hcol2]
  refine ⟨?_, rfl, ?_⟩
  · rw [List.countP_append, hcount]
    simp [List.countP, List.countP.go]
  · rw [VectorStore.colOf]
    simp only [List.map_cons, List.map_nil]
    rw [show ({ st with excluded_ids := st.excluded_ids } : VectorStore).collections
      = st.collections from rfl]
    rw [dictGet_map_modify st.collections d0.doc_type (fun c => c ++ [d0.doc_id])]
    rw [show dictGet st.collections d0.doc_type = st.colOf d0.doc_type from rfl, hcol]
    rfl

/-- C10 witness: re-adding the already-indexed KB-1 document duplicates its id
in the document list and its collection and costs one embedding call. -/
theorem add_existing_doc_witness :
    (sampleStore.add_documents [docKB1]).documents.countP
        (fun doc => decide (doc.doc_id = docKB1.doc_id)) = 2 ∧
    (sampleStore.add_documents [docKB1]).embedCalls = sampleStore.embedCalls + 1 ∧
    (sampleStore.add_documents [docKB1]).colOf docKB1.doc_type =
      some (["KB-1", "KB-2"] ++ [docKB1.doc_id]) :=
  add_existing_doc_duplicates_id sampleStore docKB1 ["KB-1", "KB-2"]
    (by decide) (by decide) (by decide)

/-! Claim C7: emerging-issue clustering. -/

theorem groupStep_inv (seen : List GapDetectionResult)
    (acc : List ((String × String) × List GapDetectionResult)) (g : GapDetectionResult)
    (h1 : ∀ p ∈ acc, p.2 = seen.filter (fun x => decide ((x.category, x.module) = p.1)))
    (h2 : ∀ x ∈ seen, ∃ p ∈ acc, p.1 = (x.category, x.module)) :
    (∀ p ∈ groupStep acc g,
      p.2 = (seen ++ [g]).filter (fun x => decide ((x.category, x.module) = p.1))) ∧
    (∀ x ∈ seen ++ [g], ∃ p ∈ groupStep acc g, p.1 = (x.category, x.module)) := by
  by_cases hany : acc.any (fun p => decide (p.1 = (g.category, g.module))) = true
  · rw [groupStep, if_pos hany]
    constructor
    · intro p hp
      rcases List.mem_map.mp hp with ⟨q, hq, hqp⟩
      by_cases hkey : q.1 = (g.category, g.module)
      · rw [if_pos hkey] at hqp
        rw [← hqp, List.filter_append, ← h1 q hq]
        simp [hkey]
      · rw [if_neg hkey] at hqp
        rw [← hqp, List.filter_append, ← h1 q hq]
        have : ¬ ((g.category, g.module) = q.1) := fun habs => hkey habs.symm
        simp [this]
    · intro x hx
      rcases List.mem_append.mp hx with hxs | hxg
      · obtain ⟨p, hp, hpk⟩ := h2 x hxs
        refine ⟨if p.1 = (g.category, g.module) then (p.1, p.2 ++ [g]) else p,
          List.mem_map_of_mem _ hp, ?_⟩
        split <;> simp [hpk]
      · simp only [List.mem_singleton] at hxg
        subst hxg
        obtain ⟨q, hq, hqk⟩ := List.any_eq_true.mp hany
        simp only [decide_eq_true_eq] at hqk
        refine ⟨if q.1 = (x.category, x.module) then (q.1, q.2 ++ [x]) else q,
          List.mem_map_of_mem _ hq, ?_⟩
        split <;> simp [hqk]
  · rw [groupStep, if_neg hany]
    have hnokey : ∀ q ∈ acc, q.1 ≠ (g.category, g.module) := by
      intro q hq habs
      exact hany (List.any_eq_true.mpr ⟨q, hq, by simp [habs]⟩)
    constructor
    · intro p hp
      rcases List.mem_append.mp hp with hpa | hpn
      · rw [List.filter_append, ← h1 p hpa]
        have : ¬ ((g.category, g.module) = p.1) := fun habs => hnokey p hpa habs.symm
        simp [this]
      · simp only [List.mem_singleton] at hpn
        subst hpn
        simp only [List.filter_append]
        have hseen : seen.filter
            (fun x => decide ((x.category, x.module) = (g.category, g.module))) = [] := by
          rw [List.filter_eq_nil_iff]
          intro x hxs
          simp only [decide_eq_true_eq]
          intro habs
          obtain ⟨q, hq, hqk⟩ := h2 x hxs
          exact hnokey q hq (by rw [hqk, habs])
        rw [hseen]
        simp
    · intro x hx
      rcases List.mem_append.mp hx with hxs | hxg
      · obtain ⟨p, hp, hpk⟩ := h2 x hxs
        exact ⟨p, List.mem_append_left _ hp, hpk⟩
      · simp only [List.mem_singleton] at hxg
        subst hxg
        exact ⟨((x.category, x.module), [x]), List.mem_append_right _ (by simp), rfl⟩

theorem groupGaps_foldl (l : List GapDetectionResult) :
    ∀ (seen : List GapDetectionResult)
      (acc : List ((String × String) × List GapDetectionResult)),
      (∀ p ∈ acc, p.2 = seen.filter (fun x => decide ((x.category, x.module) = p.1))) →
      (∀ x ∈ seen, ∃ p ∈ acc, p.1 = (x.category, x.module)) →
      ∀ p ∈ l.foldl groupStep acc,
        p.2 = (seen ++ l).filter (fun x => decide ((x.category, x.module) = p.1)) := by
  induction l with
  | nil =>
    intro seen acc h1 _ p hp
    rw [List.append_nil]
    exact h1 p hp
  | cons g l ih =>
    intro seen acc h1 h2 p hp
    rw [List.foldl_cons] at hp
    obtain ⟨h1g, h2g⟩ := groupStep_inv seen acc g h1 h2
    have := ih (seen ++ [g]) (groupStep acc g) h1g h2g p hp
    rw [this, List.append_assoc]
    rfl

/-- Members of every cluster produced by groupGaps are exactly the input gaps
carrying that (category, module) key, in input order. -/
theorem groupGaps_members (gaps : List GapDetectionResult) :
    ∀ p ∈ groupGaps gaps,
      p.2 = gaps.filter (fun x => decide ((x.category, x.module) = p.1)) := by
  intro p hp
  have := groupGaps_foldl gaps [] [] (by simp) (by simp) p hp
  simpa using this

/-- Stable sorting by a Nat key leaves each fiber of the key untouched. -/
theorem mergeSort_filter_fiber {α : Type} (f : α → Nat) (l : List α) (n : Nat) :
    (l.mergeSort (fun a b => decide (f b ≤ f a))).filter (fun a => decide (f a = n)) =
      l.filter (fun a => decide (f a = n)) := by
  have htrans : ∀ a b c : α, (fun a b => decide (f b ≤ f a)) a b = true →
      (fun a b => decide (f b ≤ f a)) b c = true →
      (fun a b => decide (f b ≤ f a)) a c = true := by
    intro a b c h1 h2
    simp only [decide_eq_true_eq] at h1 h2 ⊢
    omega
  have htotal : ∀ a b : α, ((fun a b => decide (f b ≤ f a)) a b ||
      (fun a b => decide (f b ≤ f a)) b a) = true := by
    intro a b
    simp only [Bool.or_eq_true, decide_eq_true_eq]
    omega
  have hc : (l.filter (fun a => decide (f a = n))).Pairwise
      (fun a b => (fun a b => decide (f b ≤ f a)) a b = true) := by
    apply List.pairwise_of_forall_mem_list
    intro a ha b hb
    have ha2 := (List.mem_filter.mp ha).2
    have hb2 := (List.mem_filter.mp hb).2
    simp only [decide_eq_true_eq] at ha2 hb2 ⊢
    omega
  have hsub := List.sublist_mergeSort htrans htotal hc (List.filter_sublist l)
  have hsub2 := hsub.filter (fun a => decide (f a = n))
  have hcc : (l.filter (fun a => decide (f a = n))).filter
      (fun a => decide (f a = n)) = l.filter (fun a => decide (f a = n)) := by
    apply List.filter_eq_self.mpr
    intro a ha
    exact (List.mem_filter.mp ha).2
  rw [hcc] at hsub2
  have hperm := (List.mergeSort_perm l (fun a b => decide (f b ≤ f a))).filter
    (fun a => decide (f a = n))
  exact (hsub2.eq_of_length hperm.length_eq.symm).symm

/-- C7: detect_emerging_issues keeps only clusters of is_gap results grouped
by the exact (category, module) pair with at least min_cluster_size
members; each returned record carries the member count, the full ticket
id list in scan order, the mean resolution similarity and an excerpt of
the first-seen member; the output is a permutation of the discovery-order
cluster list, sorted descending by ticket_count, and every ticket_count
fiber keeps its discovery order (stable ties). -/
theorem detect_emerging_issues_spec (gap_results : List GapDetectionResult)
    (min_cluster_size : Nat) :
    (∀ i ∈ detect_emerging_issues gap_results min_cluster_size,
      min_cluster_size ≤ i.ticket_count ∧
      i.ticket_count = i.ticket_numbers.length ∧
      i.ticket_numbers = ((gap_results.filter (fun r => r.is_gap)).filter
        (fun x => decide ((x.category, x.module) = (i.category, i.module)))).map
          (fun g => g.ticket_number) ∧
      i.avg_similarity = (((gap_results.filter (fun r => r.is_gap)).filter
        (fun x => decide ((x.category, x.module) = (i.category, i.module)))).map
          (fun g => g.resolution_similarity)).sum /
        ((((gap_results.filter (fun r => r.is_gap)).filter
          (fun x => decide ((x.category, x.module) = (i.category, i.module)))).length : ℚ)) ∧
      i.sample_resolution = ((gap_results.filter (fun r => r.is_gap)).filter
        (fun x => decide ((x.category, x.module) = (i.category, i.module)))).head?.elim ""
          (fun g => g.resolution_text.take 200)) ∧
    List.Pairwise (fun a b => b.ticket_count ≤ a.ticket_count)
      (detect_emerging_issues gap_results min_cluster_size) ∧
    (detect_emerging_issues gap_results min_cluster_size).Perm
      (emergingIssuesUnsorted gap_results min_cluster_size) ∧
    (∀ n, (detect_emerging_issues gap_results min_cluster_size).filter
        (fun i => decide (i.ticket_count = n)) =
      (emergingIssuesUnsorted gap_results min_cluster_size).filter
        (fun i => decide (i.ticket_count = n))) := by
  have hperm : (detect_emerging_issues gap_results min_cluster_size).Perm
      (emergingIssuesUnsorted gap_results min_cluster_size) :=
    List.mergeSort_perm _ _
  refine ⟨?_, ?_, hperm, ?_⟩
  · intro i hi
    have hi2 : i ∈ emergingIssuesUnsorted gap_results min_cluster_size :=
      hperm.mem_iff.mp hi
    rw [emergingIssuesUnsorted] at hi2
    rcases List.mem_filterMap.mp hi2 with ⟨p, hp, hpi⟩
    split at hpi
    · rename_i hsize
      simp only [Option.some.injEq] at hpi
      have hmembers := groupGaps_members _ p hp
      have hkeyeq : (i.category, i.module) = p.1 := by
        rw [← hpi]
      rw [hkeyeq, ← hmembers, ← hpi]
      refine ⟨hsize, by simp, rfl, rfl, rfl⟩
    · exact absurd hpi (by simp)
  · have := @List.sorted_mergeSort EmergingIssue
      (fun a b => decide (b.ticket_count ≤ a.ticket_count))
      (by intro a b c h1 h2; simp only [decide_eq_true_eq] at h1 h2 ⊢; omega)
      (by intro a b; simp only [Bool.or_eq_true, decide_eq_true_eq]; omega)
      (emergingIssuesUnsorted gap_results min_cluster_size)
    rw [detect_emerging_issues]
    exact this.imp (by intro a b h; simpa using h)
  · intro n
    rw [detect_emerging_issues]
    exact mergeSort_filter_fiber (fun i : EmergingIssue => i.ticket_count) _ n

/-! Claim C6: the full gap scan. -/

theorem mapM_except_ok {α β : Type} (f : α → Except String β) :
    ∀ (l : List α) (ys : List β), l.mapM f = .ok ys →
      List.Forall₂ (fun a y => f a = .ok y) l ys := by
  intro l
  induction l with
  | nil =>
    intro ys h
    simp only [List.mapM_nil, pure] at h
    cases h
    exact List.Forall₂.nil
  | cons a l ih =>
    intro ys h
    rw [List.mapM_cons] at h
    cases hfa : f a with
    | error e =>
      rw [hfa] at h
      simp [Bind.bind, Except.bind] at h
    | ok b =>
      rw [hfa] at h
      cases hml : l.mapM f with
      | error e =>
        rw [hml] at h
        simp [Bind.bind, Except.bind] at h
      | ok bs =>
        rw [hml] at h
        simp only [Bind.bind, Except.bind, pure, Except.ok.injEq] at h
        cases h
        exact List.Forall₂.cons hfa (ih bs hml)

theorem mapM_except_total {α β : Type} (f : α → Except String β) :
    ∀ (l : List α), (∀ a ∈ l, ∃ y, f a = .ok y) →
      ∃ ys, l.mapM f = .ok ys := by
  intro l
  induction l with
  | nil =>
    intro _
    exact ⟨[], by simp only [List.mapM_nil]; rfl⟩
  | cons a l ih =>
    intro h
    obtain ⟨y, hy⟩ := h a (List.mem_cons_self a l)
    obtain ⟨ys, hys⟩ := ih (fun x hx => h x (List.mem_cons_of_mem a hx))
    refine ⟨y :: ys, ?_⟩
    rw [List.mapM_cons, hy, hys]
    rfl

theorem forall₂_map_eq {α β : Type} (g : β → α) :
    ∀ {l : List α} {ys : List β}, List.Forall₂ (fun a y => g y = a) l ys →
      ys.map g = l := by
  intro l ys h
  induction h with
  | nil => rfl
  | cons h1 _ ih => simp [ih, h1]

theorem forall₂_mem_right {α β : Type} {R : α → β → Prop} :
    ∀ {l : List α} {ys : List β}, List.Forall₂ R l ys → ∀ y ∈ ys, ∃ a ∈ l, R a y := by
  intro l ys h
  induction h with
  | nil =>
    intro y hy
    simp at hy
  | @cons a b l1 l2 h1 _ ih =>
    intro y hy
    rcases List.mem_cons.mp hy with hyb | hy2
    · exact ⟨a, List.mem_cons_self _ _, hyb ▸ h1⟩
    · obtain ⟨x, hx, hr⟩ := ih y hy2
      exact ⟨x, List.mem_cons_of_mem _ hx, hr⟩

theorem similarity_to_corpus_total (st : VectorStore) (dist : String → ℚ)
    (dts : Option (List DocType)) (hb : st.is_built = true) :
    ∃ v, st.similarity_to_corpus dist dts = .ok v := by
  rw [VectorStore.similarity_to_corpus, if_neg (by simp [hb])]
  split
  · exact ⟨_, rfl⟩
  · exact ⟨_, rfl⟩

theorem check_ticket_number_eq (gd : GapDetector) (st : VectorStore)
    (d : String → String → ℚ) (num : String) (r : GapDetectionResult)
    (h : gd.check_ticket st d num = .ok r) : r.ticket_number = num := by
  rw [GapDetector.check_ticket] at h
  rcases hdg : dictGet gd.datastore.ticket_by_number num with _ | t
  · rw [hdg] at h
    simp at h
  · rw [hdg] at h
    dsimp only at h
    rcases h1 : st.similarity_to_corpus
        (fun id => d id t.resolution) (some [DocType.KB]) with e | r1
    · rw [h1] at h
      simp at h
    · rw [h1] at h
      dsimp only at h
      rcases h2 : st.similarity_to_corpus
          (fun id => d id (t.subject ++ " " ++ t.description)) (some [DocType.KB])
        with e | r2
      · rw [h2] at h
        simp at h
      · rw [h2] at h
        simp only [Except.ok.injEq] at h
        rw [← h]

theorem check_ticket_total (gd : GapDetector) (st : VectorStore)
    (d : String → String → ℚ) (num : String)
    (hb : st.is_built = true)
    (hmem : num ∈ gd.datastore.ticket_by_number.map (fun p => p.1)) :
    ∃ r, gd.check_ticket st d num = .ok r := by
  rw [GapDetector.check_ticket]
  have hfind : ∃ t, dictGet gd.datastore.ticket_by_number num = some t := by
    rcases List.mem_map.mp hmem with ⟨p, hp, hpk⟩
    cases hdg : dictGet gd.datastore.ticket_by_number num with
    | some t => exact ⟨t, rfl⟩
    | none =>
      exfalso
      simp only [dictGet, Option.map_eq_none', List.find?_eq_none,
        decide_eq_true_eq] at hdg
      exact hdg p hp hpk
  obtain ⟨t, ht⟩ := hfind
  rw [ht]
  obtain ⟨v1, hv1⟩ := similarity_to_corpus_total st
    (fun id => d id t.resolution) (some [DocType.KB]) hb
  obtain ⟨v2, hv2⟩ := similarity_to_corpus_total st
    (fun id => d id (t.subject ++ " " ++ t.description)) (some [DocType.KB]) hb
  dsimp only
  rw [hv1, hv2]
  exact ⟨_, rfl⟩

/-- C6: given a built index, scan_all_tickets succeeds with exactly one
GapDetectionResult per known ticket (the multiset of ticket numbers in the
output equals the key set, and an empty ticket set yields the empty list),
sorted ascending by resolution_similarity, each entry being exactly what
check_ticket returns for its ticket. -/
theorem scan_all_tickets_spec (gd : GapDetector) (st : VectorStore)
    (d : String → String → ℚ) (hb : st.is_built = true) :
    ∃ results, gd.scan_all_tickets st d = .ok results ∧
      List.Pairwise
        (fun a b => a.resolution_similarity ≤ b.resolution_similarity) results ∧
      (results.map (fun r => r.ticket_number)).Perm
        (gd.datastore.ticket_by_number.map (fun p => p.1)) ∧
      (gd.datastore.ticket_by_number = [] → results = []) ∧
      ∀ r ∈ results, gd.check_ticket st d r.ticket_number = .ok r := by
  obtain ⟨raw, hraw⟩ := mapM_except_total (gd.check_ticket st d)
    (gd.datastore.ticket_by_number.map (fun p => p.1))
    (fun a ha => check_ticket_total gd st d a hb ha)
  have hfa := mapM_except_ok (gd.check_ticket st d) _ raw hraw
  have hnums : raw.map (fun r => r.ticket_number) =
      gd.datastore.ticket_by_number.map (fun p => p.1) := by
    apply forall₂_map_eq
    exact hfa.imp (fun {a y} h => check_ticket_number_eq gd st d a y h)
  have hok : ∀ y ∈ raw, gd.check_ticket st d y.ticket_number = .ok y := by
    intro y hy
    obtain ⟨a, _, hfay⟩ := forall₂_mem_right hfa y hy
    have := check_ticket_number_eq gd st d a y hfay
    rw [this]
    exact hfay
  refine ⟨raw.mergeSort
      (fun a b => decide (a.resolution_similarity ≤ b.resolution_similarity)),
    ?_, ?_, ?_, ?_, ?_⟩
  · rw [GapDetector.scan_all_tickets]
    simp only [Bind.bind, Except.bind, hraw]
    rfl
  · have := @List.sorted_mergeSort GapDetectionResult
      (fun a b => decide (a.resolution_similarity ≤ b.resolution_similarity))
      (by
        intro a b c h1 h2
        simp only [decide_eq_true_eq] at h1 h2 ⊢
        exact le_trans h1 h2)
      (by
        intro a b
        simp only [Bool.or_eq_true, decide_eq_true_eq]
        exact le_total _ _)
      raw
    exact this.imp (by intro a b h; simpa using h)
  · rw [← hnums]
    exact (List.mergeSort_perm raw _).map (fun r => r.ticket_number)
  · intro hempty
    have hlen : raw.length = 0 := by
      have := congrArg List.length hnums
      simpa [hempty] using this
    have : (raw.mergeSort
        (fun a b => decide (a.resolution_similarity ≤ b.resolution_similarity))).length
        = 0 := by
      rw [(List.mergeSort_perm raw _).length_eq, hlen]
    exact List.length_eq_zero.mp this
  · intro r hr
    exact hok r ((List.mergeSort_perm raw _).mem_iff.mp hr)

/-! Concrete gap-detector fixture. -/

def ticketA : Ticket :=
  { resolution := "resA", subject := "subA", description := "descA", tier := 3
    module := "modA", category := "catA", script_id := none, conversation_id := none }

def ticketB : Ticket :=
  { resolution := "resB", subject := "subB", description := "descB", tier := 2
    module := "modB", category := "catB", script_id := none, conversation_id := none }

def gdSample : GapDetector :=
  { datastore :=
      { documents := [docKB1, docKB2, docSC1]
        ticket_by_number := [("T-1", ticketA), ("T-2", ticketB)] }
    threshold := 2/5 }

/-- C6 witness: the scan contract instantiated on a concrete two-ticket
detector over the built sample store. -/
theorem scan_all_tickets_witness :
    ∃ results, gdSample.scan_all_tickets sampleStore (fun _ _ => 0) = .ok results ∧
      List.Pairwise
        (fun a b => a.resolution_similarity ≤ b.resolution_similarity) results ∧
      (results.map (fun r => r.ticket_number)).Perm
        (gdSample.datastore.ticket_by_number.map (fun p => p.1)) ∧
      (gdSample.datastore.ticket_by_number = [] → results = []) ∧
      ∀ r ∈ results,
        gdSample.check_ticket sampleStore (fun _ _ => 0) r.ticket_number = .ok r :=
  scan_all_tickets_spec gdSample sampleStore (fun _ _ => 0) rfl

/-! Claim C5: the query classifier. -/

/-- Fixed tiebreak priority of the classifier: SCRIPT before KB before
TICKET. -/
def priorityIdx : DocType → Nat
  | DocType.SCRIPT => 0
  | DocType.KB => 1
  | DocType.TICKET => 2

/-- Signal list belonging to each partition. -/
def signalsOf : DocType → List String
  | DocType.SCRIPT => SCRIPT_SIGNALS
  | DocType.KB => KB_SIGNALS
  | DocType.TICKET => TICKET_SIGNALS

/-- Keyword side of the classifier score: min(hits / 3, 1). -/
def keywordScore (t : DocType) (query : String) : ℚ :=
  min ((countHits (signalsOf t) query.toLower : ℚ) / 3) 1

/-- Retrieval side of the classifier score: top-1 similarity of the partition,
0.0 when the partition returns nothing. -/
def top1Score (st : VectorStore) (dist : String → ℚ) (t : DocType) : ℚ :=
  match st.retrieve dist 1 (some [t]) ∅ with
  | .ok rs => headScore rs
  | .error _ => 0

/-- Combined classifier score: 0.4 keyword + 0.6 retrieval. -/
def finalScore (st : VectorStore) (dist : String → ℚ) (query : String)
    (t : DocType) : ℚ :=
  keywordScore t query * 0.4 + top1Score st dist t * 0.6

theorem retrieve_eq_ok (st : VectorStore) (dist : String → ℚ) (top_k : Nat)
    (dts : Option (List DocType)) (e : Finset String) (hb : st.is_built = true) :
    st.retrieve dist top_k dts e = .ok (retrieveValue st dist top_k dts e) := by
  rw [VectorStore.retrieve, if_neg (by simp [hb])]

theorem dictGet_three_KB (a b c : List RetrievalResult) :
    dictGet [(DocType.KB, a), (DocType.SCRIPT, b), (DocType.TICKET, c)]
      DocType.KB = some a := rfl

theorem dictGet_three_SCRIPT (a b c : List RetrievalResult) :
    dictGet [(DocType.KB, a), (DocType.SCRIPT, b), (DocType.TICKET, c)]
      DocType.SCRIPT = some b := rfl

theorem dictGet_three_TICKET (a b c : List RetrievalResult) :
    dictGet [(DocType.KB, a), (DocType.SCRIPT, b), (DocType.TICKET, c)]
      DocType.TICKET = some c := rfl

theorem classify_query_eq (query : String) (st : VectorStore) (dist : String → ℚ)
    (hb : st.is_built = true) :
    classify_query query st dist = .ok
      (if finalScore st dist query DocType.SCRIPT =
          max (finalScore st dist query DocType.SCRIPT)
            (max (finalScore st dist query DocType.KB)
              (finalScore st dist query DocType.TICKET)) then DocType.SCRIPT
       else if finalScore st dist query DocType.KB =
          max (finalScore st dist query DocType.SCRIPT)
            (max (finalScore st dist query DocType.KB)
              (finalScore st dist query DocType.TICKET)) then DocType.KB
       else DocType.TICKET,
       [(DocType.SCRIPT, finalScore st dist query DocType.SCRIPT),
        (DocType.KB, finalScore st dist query DocType.KB),
        (DocType.TICKET, finalScore st dist query DocType.TICKET)]) := by
  have hrbp : st.retrieve_by_partitions dist 1 = .ok
      [(DocType.KB, retrieveValue st dist 1 (some [DocType.KB]) ∅),
       (DocType.SCRIPT, retrieveValue st dist 1 (some [DocType.SCRIPT]) ∅),
       (DocType.TICKET, retrieveValue st dist 1 (some [DocType.TICKET]) ∅)] := by
    rw [VectorStore.retrieve_by_partitions, List.mapM_cons, List.mapM_cons,
      List.mapM_cons, List.mapM_nil,
      retrieve_eq_ok st dist 1 (some [DocType.KB]) ∅ hb,
      retrieve_eq_ok st dist 1 (some [DocType.SCRIPT]) ∅ hb,
      retrieve_eq_ok st dist 1 (some [DocType.TICKET]) ∅ hb]
    rfl
  simp only [classify_query, hrbp]
  simp only [dictGet_three_KB, dictGet_three_SCRIPT, dictGet_three_TICKET,
    Option.getD_some]
  simp only [finalScore, keywordScore, top1Score, signalsOf,
    retrieve_eq_ok st dist 1 (some [DocType.KB]) ∅ hb,
    retrieve_eq_ok st dist 1 (some [DocType.SCRIPT]) ∅ hb,
    retrieve_eq_ok st dist 1 (some [DocType.TICKET]) ∅ hb]

/-- C5: with a built index, classify_query returns the final-score map
final = 0.4 min(hits/3, 1) + 0.6 top-1-similarity over the three
partitions and predicts a partition of maximal final score, breaking exact
ties by the fixed priority SCRIPT, then KB, then TICKET. -/
theorem classify_query_spec (query : String) (st : VectorStore)
    (dist : String → ℚ) (hb : st.is_built = true) :
    ∃ p, classify_query query st dist = .ok
        (p, [(DocType.SCRIPT, finalScore st dist query DocType.SCRIPT),
             (DocType.KB, finalScore st dist query DocType.KB),
             (DocType.TICKET, finalScore st dist query DocType.TICKET)]) ∧
      (∀ t, finalScore st dist query t ≤ finalScore st dist query p) ∧
      (∀ t, finalScore st dist query t = finalScore st dist query p →
        priorityIdx p ≤ priorityIdx t) := by
  have hcq := classify_query_eq query st dist hb
  set sS := finalScore st dist query DocType.SCRIPT with hsS
  set sK := finalScore st dist query DocType.KB with hsK
  set sT := finalScore st dist query DocType.TICKET with hsT
  have hMS : sS ≤ max sS (max sK sT) := le_max_left _ _
  have hMK : sK ≤ max sS (max sK sT) :=
    le_trans (le_max_left _ _) (le_max_right _ _)
  have hMT : sT ≤ max sS (max sK sT) :=
    le_trans (le_max_right _ _) (le_max_right _ _)
  by_cases c1 : sS = max sS (max sK sT)
  · rw [if_pos c1] at hcq
    have hKS : sK ≤ sS := by rw [c1]; exact hMK
    have hTS : sT ≤ sS := by rw [c1]; exact hMT
    refine ⟨DocType.SCRIPT, hcq, ?_, ?_⟩
    · intro t
      cases t <;> simp only [← hsS, ← hsK, ← hsT]
      · exact hKS
      · exact le_refl sS
      · exact hTS
    · intro t _
      cases t <;> simp [priorityIdx]
  · rw [if_neg c1] at hcq
    by_cases c2 : sK = max sS (max sK sT)
    · rw [if_pos c2] at hcq
      have hSK : sS ≤ sK := by rw [c2]; exact hMS
      have hTK : sT ≤ sK := by rw [c2]; exact hMT
      refine ⟨DocType.KB, hcq, ?_, ?_⟩
      · intro t
        cases t <;> simp only [← hsS, ← hsK, ← hsT]
        · exact le_refl sK
        · exact hSK
        · exact hTK
      · intro t ht
        simp only [← hsS, ← hsK, ← hsT] at ht
        cases t
        · simp [priorityIdx]
        · simp only [← hsS, ← hsK, ← hsT] at ht
          exact absurd (ht.trans c2) c1
        · simp [priorityIdx]
    · rw [if_neg c2] at hcq
      have c3 : sT = max sS (max sK sT) := by
        rcases max_choice sS (max sK sT) with h | h
        · exact absurd h.symm c1
        · rcases max_choice sK sT with h2 | h2
          · exact absurd (h.trans h2).symm c2
          · exact (h.trans h2).symm
      have hST : sS ≤ sT := by rw [c3]; exact hMS
      have hKT : sK ≤ sT := by rw [c3]; exact hMK
      refine ⟨DocType.TICKET, hcq, ?_, ?_⟩
      · intro t
        cases t <;> simp only [← hsS, ← hsK, ← hsT]
        · exact hKT
        · exact hST
        · exact le_refl sT
      · intro t ht
        cases t
        · simp only [← hsS, ← hsK, ← hsT] at ht
          exact absurd (ht.trans c3) c2
        · simp only [← hsS, ← hsK, ← hsT] at ht
          exact absurd (ht.trans c3) c1
        · simp [priorityIdx]

/-- C5 witness: the classifier contract instantiated on the sample store and
a concrete query. -/
theorem classify_query_witness :
    ∃ p, classify_query "how to run a backend script" sampleStore sampleDist = .ok
        (p, [(DocType.SCRIPT,
              finalScore sampleStore sampleDist "how to run a backend script"
                DocType.SCRIPT),
             (DocType.KB,
              finalScore sampleStore sampleDist "how to run a backend script"
                DocType.KB),
             (DocType.TICKET,
              finalScore sampleStore sampleDist "how to run a backend script"
                DocType.TICKET)]) ∧
      (∀ t, finalScore sampleStore sampleDist "how to run a backend script" t ≤
        finalScore sampleStore sampleDist "how to run a backend script" p) ∧
      (∀ t, finalScore sampleStore sampleDist "how to run a backend script" t =
          finalScore sampleStore sampleDist "how to run a backend script" p →
        priorityIdx p ≤ priorityIdx t) :=
  classify_query_spec "how to run a backend script" sampleStore sampleDist rfl

/-! Claim C3: remove followed by an identical add is a lossless restore. -/

theorem dictGet_dictUpsert_self {κ α : Type} [DecidableEq κ]
    (m : List (κ × α)) (k : κ) (v : α) : dictGet (dictUpsert m k v) k = some v := by
  rw [dictUpsert]
  split
  · rename_i hany
    induction m with
    | nil => simp at hany
    | cons p m ih =>
      by_cases hp : p.1 = k
      · simp only [List.map_cons, if_pos hp, dictGet]
        rw [List.find?_cons_of_pos _ (by simp)]
        rfl
      · simp only [List.map_cons, if_neg hp, dictGet]
        rw [List.find?_cons_of_neg _ (by simp [hp])]
        have hany2 : m.any (fun p => decide (p.1 = k)) = true := by
          simpa [hp] using hany
        simp only [dictGet] at ih
        exact ih hany2
  · induction m with
    | nil => simp [dictGet]
    | cons p m ih =>
      rename_i hany
      have hp : ¬ (p.1 = k) := by
        intro habs
        exact hany (by simp [List.any_cons, habs])
      have hany2 : ¬ (m.any (fun p => decide (p.1 = k)) = true) := by
        intro habs
        exact hany (by simp [List.any_cons, habs])
      simp only [List.cons_append, dictGet]
      rw [List.find?_cons_of_neg _ (by simp [hp])]
      simp only [dictGet] at ih
      exact ih hany2

theorem find?_map_update_ne {κ α : Type} [DecidableEq κ]
    (m : List (κ × α)) (k k2 : κ) (v : α) (h : k2 ≠ k) :
    dictGet (m.map (fun p => if p.1 = k then (k, v) else p)) k2 = dictGet m k2 := by
  induction m with
  | nil => rfl
  | cons p m ih =>
    by_cases hp : p.1 = k
    · simp only [List.map_cons, if_pos hp, dictGet]
      rw [List.find?_cons_of_neg _ (by simp [Ne.symm h]),
        List.find?_cons_of_neg _ (by simp [hp, Ne.symm h])]
      simp only [dictGet] at ih
      exact ih
    · simp only [List.map_cons, if_neg hp, dictGet]
      by_cases hp2 : p.1 = k2
      · rw [List.find?_cons_of_pos _ (by simp [hp2]),
          List.find?_cons_of_pos _ (by simp [hp2])]
      · rw [List.find?_cons_of_neg _ (by simp [hp2]),
          List.find?_cons_of_neg _ (by simp [hp2])]
        simp only [dictGet] at ih
        exact ih

theorem dictGet_dictUpsert_ne {κ α : Type} [DecidableEq κ]
    (m : List (κ × α)) (k k2 : κ) (v : α) (h : k2 ≠ k) :
    dictGet (dictUpsert m k v) k2 = dictGet m k2 := by
  rw [dictUpsert]
  split
  · exact find?_map_update_ne m k k2 v h
  · simp only [dictGet, List.find?_append]
    have : List.find? (fun p => decide (p.1 = k2)) [(k, v)] = none := by
      rw [List.find?_cons_of_neg _ (by simp [Ne.symm h])]
      rfl
    rw [this]
    cases List.find? (fun p => decide (p.1 = k2)) m <;> rfl

theorem dictGet_foldl_upsert (docs : List Document) :
    ∀ (m : List (String × Document)) (id : String),
      dictGet (docs.foldl (fun m d => dictUpsert m d.doc_id d) m) id =
        match docs.reverse.find? (fun d => decide (d.doc_id = id)) with
        | some d => some d
        | none => dictGet m id := by
  induction docs with
  | nil =>
    intro m id
    rfl
  | cons d docs ih =>
    intro m id
    rw [List.foldl_cons, ih, List.reverse_cons, List.find?_append]
    cases hfind : docs.reverse.find? (fun d => decide (d.doc_id = id)) with
    | some d2 => rfl
    | none =>
      by_cases hd : d.doc_id = id
      · rw [List.find?_cons_of_pos _ (by simp [hd])]
        have : id = d.doc_id := hd.symm
        rw [show dictGet (dictUpsert m d.doc_id d) id = some d from
          this ▸ dictGet_dictUpsert_self m d.doc_id d]
        rfl
      · rw [List.find?_cons_of_neg _ (by simp [hd])]
        rw [dictGet_dictUpsert_ne m d.doc_id id d (fun habs => hd habs.symm)]
        rfl

theorem dictGet_dictOfDocs (docs : List Document) (id : String) :
    dictGet (dictOfDocs docs) id =
      match docs.reverse.find? (fun d => decide (d.doc_id = id)) with
      | some d => some d
      | none => none := by
  rw [dictOfDocs, dictGet_foldl_upsert]
  cases docs.reverse.find? (fun d => decide (d.doc_id = id)) <;> rfl

theorem find?_filter_invisible (l : List Document) (p : Document → Bool)
    (id : String) (h : ∀ d : Document, d.doc_id = id → p d = true) :
    (l.filter p).find? (fun d => decide (d.doc_id = id)) =
      l.find? (fun d => decide (d.doc_id = id)) := by
  induction l with
  | nil => rfl
  | cons d l ih =>
    by_cases hd : d.doc_id = id
    · rw [List.filter_cons, if_pos (h d hd),
        List.find?_cons_of_pos _ (by simp [hd]),
        List.find?_cons_of_pos _ (by simp [hd])]
    · rw [List.filter_cons]
      split
      · rw [List.find?_cons_of_neg _ (by simp [hd]),
          List.find?_cons_of_neg _ (by simp [hd])]
        exact ih
      · rw [List.find?_cons_of_neg _ (by simp [hd])]
        exact ih

theorem buildResults_ext (idx1 idx2 : List (String × Document))
    (h : ∀ id, dictGet idx1 id = dictGet idx2 id) (excl : Finset String) (k : Nat) :
    ∀ (l : List (String × ℚ)) (rank : Nat),
      buildResults idx1 excl k l rank = buildResults idx2 excl k l rank := by
  intro l
  induction l with
  | nil =>
    intro rank
    rfl
  | cons hd tl ih =>
    intro rank
    obtain ⟨id, dd⟩ := hd
    rw [buildResults, buildResults]
    by_cases hex : excl ≠ ∅ ∧ id ∈ excl
    · rw [if_pos hex, if_pos hex]
      exact ih rank
    · rw [if_neg hex, if_neg hex]
      by_cases hrk : k < rank
      · rw [if_pos hrk, if_pos hrk]
      · rw [if_neg hrk, if_neg hrk, h id]
        cases dictGet idx2 id with
        | none => exact ih rank
        | some doc =>
          rw [ih (rank + 1)]

theorem retrieve_ext (st1 st2 : VectorStore)
    (hc : st1.collections = st2.collections)
    (he : st1.excluded_ids = st2.excluded_ids)
    (hbq : st1.is_built = st2.is_built)
    (hi : ∀ id, dictGet st1.doc_index id = dictGet st2.doc_index id) :
    ∀ (dist : String → ℚ) (k : Nat) (dts : Option (List DocType))
      (e : Finset String), st1.retrieve dist k dts e = st2.retrieve dist k dts e := by
  intro dist k dts e
  rw [VectorStore.retrieve, VectorStore.retrieve, hbq]
  by_cases hb : st2.is_built = false
  · rw [if_pos hb, if_pos hb]
  · rw [if_neg hb, if_neg hb]
    have htt : targetTypes st1 dts = targetTypes st2 dts := by
      cases dts with
      | none => simp only [targetTypes, hc]
      | some ts => simp only [targetTypes, hc]
    have hgs : gatherStep st1 dist (e ∪ st1.excluded_ids) k =
        gatherStep st2 dist (e ∪ st2.excluded_ids) k := by
      funext acc dtype
      rw [gatherStep, gatherStep, he,
        show st1.colOf dtype = st2.colOf dtype from by
          rw [VectorStore.colOf, VectorStore.colOf, hc]]
    rw [retrieveValue, retrieveValue, hgs, htt, he]
    exact congrArg Except.ok
      (buildResults_ext st1.doc_index st2.doc_index hi (e ∪ st2.excluded_ids) k _ 1)

/-- C3: for an indexed, non-excluded document x whose index entry equals x
(identical content), remove then add restores the exclusion set, performs
no embedding call, and afterwards every retrieve call agrees with the
pre-removal store. -/
theorem remove_add_restore (st : VectorStore) (x : Document)
    (hx : dictGet st.doc_index x.doc_id = some x)
    (hnx : x.doc_id ∉ st.excluded_ids)
    (hidx : ∀ id, dictGet st.doc_index id = dictGet (dictOfDocs st.documents) id) :
    ((st.remove_documents {x.doc_id}).add_documents [x]).excluded_ids =
      st.excluded_ids ∧
    ((st.remove_documents {x.doc_id}).add_documents [x]).embedCalls =
      st.embedCalls ∧
    ∀ (dist : String → ℚ) (k : Nat) (dts : Option (List DocType))
      (e : Finset String),
      ((st.remove_documents {x.doc_id}).add_documents [x]).retrieve dist k dts e =
        st.retrieve dist k dts e := by
  have hmem : x.doc_id ∈ (st.remove_documents {x.doc_id}).excluded_ids := by
    rw [VectorStore.remove_documents]
    exact Finset.mem_union_right _ (Finset.mem_singleton_self _)
  have hrestored : [x].filter
      (fun d => decide (d.doc_id ∈ (st.remove_documents {x.doc_id}).excluded_ids)) =
      [x] := by
    simp [List.filter, hmem]
  have hnew : [x].filter
      (fun d => decide (d.doc_id ∉ (st.remove_documents {x.doc_id}).excluded_ids)) =
      [] := by
    simp [List.filter, hmem]
  have hexcl : ((st.remove_documents {x.doc_id}).excluded_ids \
      (([x].map (fun d => d.doc_id)).toFinset)) = st.excluded_ids := by
    rw [VectorStore.remove_documents]
    ext a
    simp only [List.map_cons, List.map_nil, List.toFinset_cons, List.toFinset_nil,
      insert_emptyc_eq, Finset.mem_sdiff, Finset.mem_union, Finset.mem_singleton]
    constructor
    · rintro ⟨h1 | h1, h2⟩
      · exact h1
      · exact absurd h1 h2
    · intro ha
      refine ⟨Or.inl ha, ?_⟩
      intro habs
      rw [habs] at ha
      exact hnx ha
  have hstate : ((st.remove_documents {x.doc_id}).add_documents [x]) =
      { (st.remove_documents {x.doc_id}) with
        excluded_ids := st.excluded_ids
        documents := (st.remove_documents {x.doc_id}).documents ++ [x]
        doc_index := dictUpsert (st.remove_documents {x.doc_id}).doc_index
          x.doc_id x } := by
    rw [VectorStore.add_documents, hrestored, hnew, hexcl]
    simp [groupByDocType]
  refine ⟨by rw [hstate], by rw [hstate]; rfl, ?_⟩
  have hi : ∀ id, dictGet
      (dictUpsert (st.remove_documents {x.doc_id}).doc_index x.doc_id x) id =
      dictGet st.doc_index id := by
    intro id
    by_cases hid : id = x.doc_id
    · rw [hid, dictGet_dictUpsert_self, hx]
    · rw [dictGet_dictUpsert_ne _ _ _ _ hid]
      rw [show (st.remove_documents {x.doc_id}).doc_index =
        dictOfDocs (st.documents.filter
          (fun d => decide (d.doc_id ∉ ({x.doc_id} : Finset String)))) from rfl]
      rw [dictGet_dictOfDocs, hidx id, dictGet_dictOfDocs]
      rw [show (st.documents.filter
          (fun d => decide (d.doc_id ∉ ({x.doc_id} : Finset String)))).reverse =
        st.documents.reverse.filter
          (fun d => decide (d.doc_id ∉ ({x.doc_id} : Finset String))) from
        (List.filter_reverse _ _).symm]
      rw [find?_filter_invisible st.documents.reverse _ id
        (by
          intro d hd
          simp only [decide_eq_true_eq, Finset.mem_singleton]
          rw [hd]
          exact hid)]
  intro dist k dts e
  rw [hstate]
  apply retrieve_ext
  · rfl
  · rfl
  · rfl
  · exact hi

/-- C3 witness: the restore contract instantiated on the sample store with the
concrete KB-1 document. -/
theorem remove_add_restore_witness :
    ((sampleStore.remove_documents {docKB1.doc_id}).add_documents
        [docKB1]).excluded_ids = sampleStore.excluded_ids ∧
    ((sampleStore.remove_documents {docKB1.doc_id}).add_documents
        [docKB1]).embedCalls = sampleStore.embedCalls ∧
    ∀ (dist : String → ℚ) (k : Nat) (dts : Option (List DocType))
      (e : Finset String),
      ((sampleStore.remove_documents {docKB1.doc_id}).add_documents
          [docKB1]).retrieve dist k dts e =
        sampleStore.retrieve dist k dts e :=
  remove_add_restore sampleStore docKB1 (by decide) (by decide) (fun _ => rfl)

/-! Claim C4: the before/after evaluation protocol. -/

def docSyn : Document :=
  { doc_id := "KB-SYN-1", doc_type := DocType.KB, title := "t", body := "b"
    search_text := "s", metadata := [("source_type", "SYNTH_FROM_TICKET")]
    provenance := [] }

def gdC4 : GapDetector :=
  { datastore := { documents := [docSyn], ticket_by_number := [("T-1", ticketA)] }
    threshold := 2/5 }

def stC4 : VectorStore :=
  { collections := [(DocType.KB, ["KB-SYN-1"])]
    documents := [docSyn]
    doc_index := dictOfDocs [docSyn]
    is_built := true
    excluded_ids := ∅
    embedCalls := 0 }

/-- C4 counterexample: the protocol body has no scoped or deferred cleanup, so
a provider failure in the mid-protocol scan (after the virtual removal,
before the add-back) leaves the synthetic articles excluded and the
document set shrunk: the index is not restored under an exception. -/
theorem before_after_not_exception_safe :
    gdC4.before_after_comparison stC4 (fun _ _ => 0) false true =
      .error (stC4.remove_documents {"KB-SYN-1"}) ∧
    (stC4.remove_documents {"KB-SYN-1"}).excluded_ids ≠ stC4.excluded_ids ∧
    ¬ (stC4.remove_documents {"KB-SYN-1"}).documents.Perm stC4.documents := by
  refine ⟨?_, by decide, by decide⟩
  have hids : syntheticKbIds gdC4.datastore = {"KB-SYN-1"} := by decide
  have hscan : ∃ rs, gdC4.scan_all_tickets stC4 (fun _ _ => 0) = .ok rs :=
    (scan_all_tickets_spec gdC4 stC4 (fun _ _ => 0) rfl).imp
      (fun _ h => h.1)
  obtain ⟨rs, hrs⟩ := hscan
  simp only [GapDetector.before_after_comparison, hids, Bool.false_eq_true,
    if_false, hrs, if_true]

/-- C4 amended: on an exception-free run (no provider failure, built index),
the protocol completes and restores both the exclusion set and the
document set (up to order) to their pre-call values. -/
theorem before_after_restores_on_success (gd : GapDetector) (st : VectorStore)
    (d : String → String → ℚ)
    (hdocs : st.documents = gd.datastore.documents)
    (hdisj : ∀ a ∈ syntheticKbIds gd.datastore, a ∉ st.excluded_ids)
    (hb : st.is_built = true) :
    ∃ st2 comp, gd.before_after_comparison st d false false = .ok (st2, comp) ∧
      st2.excluded_ids = st.excluded_ids ∧
      st2.documents.Perm st.documents := by
  obtain ⟨rs1, hrs1, -⟩ := scan_all_tickets_spec gd st d hb
  have hb1 : (st.remove_documents (syntheticKbIds gd.datastore)).is_built = true := hb
  obtain ⟨rs2, hrs2, -⟩ :=
    scan_all_tickets_spec gd (st.remove_documents (syntheticKbIds gd.datastore)) d hb1
  have hidsmem : ∀ a ∈ syntheticKbIds gd.datastore,
      ∃ doc ∈ gd.datastore.documents, doc.doc_id = a := by
    intro a ha
    rw [syntheticKbIds] at ha
    simp only [List.mem_toFinset, List.mem_map, List.mem_filter,
      Bool.and_eq_true, decide_eq_true_eq] at ha
    obtain ⟨doc, hdoc, rfl⟩ := ha
    exact ⟨doc, hdoc.1, rfl⟩
  have hT : ((gd.datastore.documents.filter
      (fun doc => decide (doc.doc_id ∈ syntheticKbIds gd.datastore))).map
        (fun doc => doc.doc_id)).toFinset = syntheticKbIds gd.datastore := by
    ext a
    simp only [List.mem_toFinset, List.mem_map, List.mem_filter, decide_eq_true_eq]
    constructor
    · rintro ⟨doc, ⟨-, hmem⟩, rfl⟩
      exact hmem
    · intro ha
      obtain ⟨doc, hdoc, rfl⟩ := hidsmem a ha
      exact ⟨doc, ⟨hdoc, ha⟩, rfl⟩
  have hrestored : (gd.datastore.documents.filter
        (fun doc => decide (doc.doc_id ∈ syntheticKbIds gd.datastore))).filter
      (fun dd => decide (dd.doc_id ∈
        (st.remove_documents (syntheticKbIds gd.datastore)).excluded_ids)) =
      gd.datastore.documents.filter
        (fun doc => decide (doc.doc_id ∈ syntheticKbIds gd.datastore)) := by
    apply List.filter_eq_self.mpr
    intro dd hdd
    have := (List.mem_filter.mp hdd).2
    simp only [decide_eq_true_eq] at this ⊢
    rw [VectorStore.remove_documents]
    exact Finset.mem_union_right _ this
  have hnew : (gd.datastore.documents.filter
        (fun doc => decide (doc.doc_id ∈ syntheticKbIds gd.datastore))).filter
      (fun dd => decide (dd.doc_id ∉
        (st.remove_documents (syntheticKbIds gd.datastore)).excluded_ids)) = [] := by
    rw [List.filter_eq_nil_iff]
    intro dd hdd
    have := (List.mem_filter.mp hdd).2
    simp only [decide_eq_true_eq] at this ⊢
    intro habs
    exact habs (Finset.mem_union_right _ this)
  have hstate : (st.remove_documents (syntheticKbIds gd.datastore)).add_documents
      (gd.datastore.documents.filter
        (fun doc => decide (doc.doc_id ∈ syntheticKbIds gd.datastore))) =
      { (st.remove_documents (syntheticKbIds gd.datastore)) with
        excluded_ids :=
          if (gd.datastore.documents.filter
              (fun doc => decide (doc.doc_id ∈ syntheticKbIds gd.datastore))) ≠ [] then
            (st.remove_documents (syntheticKbIds gd.datastore)).excluded_ids \
              ((gd.datastore.documents.filter
                (fun doc => decide (doc.doc_id ∈ syntheticKbIds gd.datastore))).map
                  (fun doc => doc.doc_id)).toFinset
          else (st.remove_documents (syntheticKbIds gd.datastore)).excluded_ids
        documents :=
          (st.remove_documents (syntheticKbIds gd.datastore)).documents ++
            gd.datastore.documents.filter
              (fun doc => decide (doc.doc_id ∈ syntheticKbIds gd.datastore))
        doc_index :=
          (gd.datastore.documents.filter
            (fun doc => decide (doc.doc_id ∈ syntheticKbIds gd.datastore))).foldl
              (fun m dd => dictUpsert m dd.doc_id dd)
              (st.remove_documents (syntheticKbIds gd.datastore)).doc_index } := by
    rw [VectorStore.add_documents, hrestored, hnew]
    simp [groupByDocType]
  have hexcl : ((st.remove_documents (syntheticKbIds gd.datastore)).add_documents
      (gd.datastore.documents.filter
        (fun doc => decide (doc.doc_id ∈ syntheticKbIds gd.datastore)))).excluded_ids =
      st.excluded_ids := by
    rw [hstate]
    by_cases hs : (gd.datastore.documents.filter
        (fun doc => decide (doc.doc_id ∈ syntheticKbIds gd.datastore))) = []
    · have hids : syntheticKbIds gd.datastore = ∅ := by
        rw [← hT, hs]
        rfl
      simp only [hs, ne_eq, not_true_eq_false, if_false]
      rw [VectorStore.remove_documents]
      simp only [hids, Finset.union_empty]
    · simp only [ne_eq, hs, not_false_eq_true, if_true, hT]
      rw [VectorStore.remove_documents]
      ext a
      simp only [Finset.mem_sdiff, Finset.mem_union]
      constructor
      · rintro ⟨h1 | h1, h2⟩
        · exact h1
        · exact absurd h1 h2
      · intro ha
        exact ⟨Or.inl ha, fun habs => hdisj a habs ha⟩
  have hperm : ((st.remove_documents (syntheticKbIds gd.datastore)).add_documents
      (gd.datastore.documents.filter
        (fun doc => decide (doc.doc_id ∈ syntheticKbIds gd.datastore)))).documents.Perm
      st.documents := by
    rw [hstate]
    show ((st.documents.filter
        (fun dd => decide (dd.doc_id ∉ syntheticKbIds gd.datastore))) ++
      gd.datastore.documents.filter
        (fun doc => decide (doc.doc_id ∈ syntheticKbIds gd.datastore))).Perm
      st.documents
    rw [← hdocs]
    rw [show (fun doc : Document => decide (doc.doc_id ∈ syntheticKbIds gd.datastore)) =
      (fun doc : Document => !(decide (doc.doc_id ∉ syntheticKbIds gd.datastore))) from
      funext fun doc => by simp [decide_not]]
    exact List.filter_append_perm _ st.documents
  exact ⟨_, _, by
    simp only [GapDetector.before_after_comparison, Bool.false_eq_true, if_false,
      hrs1, hrs2]
    rfl, hexcl, hperm⟩

/-- C4 witness: a normal run on the concrete one-synthetic-document fixture
completes and restores the exclusion set and document set. -/
theorem before_after_restore_witness :
    ∃ st2 comp, gdC4.before_after_comparison stC4 (fun _ _ => 0) false false =
        .ok (st2, comp) ∧
      st2.excluded_ids = stC4.excluded_ids ∧
      st2.documents.Perm stC4.documents :=
  before_after_restores_on_success gdC4 stC4 (fun _ _ => 0) rfl (by decide) rfl

/-! Claim C2: the retrieval contract. -/

/-- Candidate survivor test used to count what retrieve can return: the id is
not excluded and is present in the doc index. -/
def survPair (idx : List (String × Document)) (excl : Finset String) :
    String × ℚ → Bool :=
  fun q => decide (q.1 ∉ excl ∧ dictGet idx q.1 ≠ none)

/-- Number of available candidates in one partition: stored ids that are
neither excluded nor missing from the doc index. -/
def availOf (st : VectorStore) (excl : Finset String) (t : DocType) : Nat :=
  match st.colOf t with
  | none => 0
  | some col =>
    col.countP (fun id => decide (id ∉ excl ∧ dictGet st.doc_index id ≠ none))

/-- Number of available candidates for a query across the target partitions. -/
def availCount (st : VectorStore) (dts : Option (List DocType))
    (excl : Finset String) : Nat :=
  ((targetTypes st dts).map (availOf st excl)).sum

theorem buildResults_score_mem {idx : List (String × Document)}
    {excl : Finset String} {k : Nat} :
    ∀ {l : List (String × ℚ)} {rank : Nat} {r : RetrievalResult},
      r ∈ buildResults idx excl k l rank → ∃ p ∈ l, r.score = 1 - p.2 := by
  intro l
  induction l with
  | nil =>
    intro rank r hr
    simp [buildResults] at hr
  | cons hd tl ih =>
    intro rank r hr
    obtain ⟨id, dd⟩ := hd
    rw [buildResults] at hr
    by_cases hex : excl ≠ ∅ ∧ id ∈ excl
    · rw [if_pos hex] at hr
      obtain ⟨p, hp, hps⟩ := ih hr
      exact ⟨p, List.mem_cons_of_mem _ hp, hps⟩
    · rw [if_neg hex] at hr
      by_cases hrk : k < rank
      · rw [if_pos hrk] at hr
        simp at hr
      · rw [if_neg hrk] at hr
        cases hget : dictGet idx id with
        | none =>
          rw [hget] at hr
          obtain ⟨p, hp, hps⟩ := ih hr
          exact ⟨p, List.mem_cons_of_mem _ hp, hps⟩
        | some doc =>
          rw [hget] at hr
          rcases List.mem_cons.mp hr with heq | hmem
          · exact ⟨(id, dd), List.mem_cons_self _ _, by rw [heq]⟩
          · obtain ⟨p, hp, hps⟩ := ih hmem
            exact ⟨p, List.mem_cons_of_mem _ hp, hps⟩

theorem buildResults_sorted (idx : List (String × Document)) (excl : Finset String)
    (k : Nat) :
    ∀ (l : List (String × ℚ)) (rank : Nat),
      List.Pairwise (fun a b : String × ℚ => a.2 ≤ b.2) l →
      List.Pairwise (fun a b : RetrievalResult => b.score ≤ a.score)
        (buildResults idx excl k l rank) := by
  intro l
  induction l with
  | nil =>
    intro rank _
    simp [buildResults]
  | cons hd tl ih =>
    intro rank hpw
    obtain ⟨id, dd⟩ := hd
    have hpw2 := List.Pairwise.of_cons hpw
    have hhead : ∀ p ∈ tl, dd ≤ p.2 := by
      intro p hp
      exact List.rel_of_pairwise_cons hpw hp
    rw [buildResults]
    by_cases hex : excl ≠ ∅ ∧ id ∈ excl
    · rw [if_pos hex]
      exact ih rank hpw2
    · rw [if_neg hex]
      by_cases hrk : k < rank
      · rw [if_pos hrk]
        exact List.Pairwise.nil
      · rw [if_neg hrk]
        cases hget : dictGet idx id with
        | none => exact ih rank hpw2
        | some doc =>
          refine List.Pairwise.cons ?_ (ih (rank + 1) hpw2)
          intro r hr
          obtain ⟨p, hp, hps⟩ := buildResults_score_mem hr
          rw [hps]
          have := hhead p hp
          show 1 - p.2 ≤ 1 - dd
          linarith

theorem buildResults_ranks (idx : List (String × Document)) (excl : Finset String)
    (k : Nat) :
    ∀ (l : List (String × ℚ)) (rank : Nat),
      (buildResults idx excl k l rank).map (fun r => r.rank) =
        List.range' rank (buildResults idx excl k l rank).length := by
  intro l
  induction l with
  | nil =>
    intro rank
    rfl
  | cons hd tl ih =>
    intro rank
    obtain ⟨id, dd⟩ := hd
    rw [buildResults]
    by_cases hex : excl ≠ ∅ ∧ id ∈ excl
    · rw [if_pos hex]
      exact ih rank
    · rw [if_neg hex]
      by_cases hrk : k < rank
      · rw [if_pos hrk]
        rfl
      · rw [if_neg hrk]
        cases hget : dictGet idx id with
        | none => exact ih rank
        | some doc =>
          simp only [List.map_cons, List.length_cons, ih (rank + 1)]
          rfl

theorem buildResults_length (idx : List (String × Document)) (excl : Finset String)
    (k : Nat) :
    ∀ (l : List (String × ℚ)) (rank : Nat),
      (buildResults idx excl k l rank).length =
        min (k + 1 - rank)
          (l.countP (fun p => decide (p.1 ∉ excl ∧ dictGet idx p.1 ≠ none))) := by
  intro l
  induction l with
  | nil =>
    intro rank
    simp [buildResults]
  | cons hd tl ih =>
    intro rank
    obtain ⟨id, dd⟩ := hd
    rw [buildResults, List.countP_cons]
    by_cases hex : excl ≠ ∅ ∧ id ∈ excl
    · rw [if_pos hex]
      have hfalse : (decide ((id, dd).1 ∉ excl ∧ dictGet idx (id, dd).1 ≠ none)) = false := by
        simp only [decide_eq_false_iff_not, not_and]
        intro habs
        exact absurd hex.2 habs
      rw [hfalse, if_neg (by simp), ih rank]
      omega
    · rw [if_neg hex]
      have hnotin : id ∉ excl := by
        by_cases hemp : excl = ∅
        · rw [hemp]
          exact Finset.not_mem_empty id
        · intro habs
          exact hex ⟨hemp, habs⟩
      by_cases hrk : k < rank
      · rw [if_pos hrk]
        simp only [List.length_nil]
        omega
      · rw [if_neg hrk]
        cases hget : dictGet idx id with
        | none =>
          dsimp only
          have hfalse : (decide ((id, dd).1 ∉ excl ∧ (none : Option Document) ≠ none)) =
              false := by simp
          rw [hfalse, if_neg (by simp), ih rank]
          omega
        | some doc =>
          dsimp only
          have htrue : (decide ((id, dd).1 ∉ excl ∧ (some doc : Option Document) ≠ none)) =
              true := by simp [hnotin]
          rw [htrue, if_pos rfl]
          simp only [List.length_cons, ih (rank + 1)]
          omega

/-- Candidates contributed by one target collection in retrieve (the body of
gatherStep, without the accumulator). -/
def gatherOne (st : VectorStore) (dist : String → ℚ) (all_exclude : Finset String)
    (top_k : Nat) (dtype : DocType) : List (String × ℚ) :=
  match st.colOf dtype with
  | none => []
  | some col =>
    if col.length = 0 then []
    else
      let request_k := if all_exclude ≠ ∅ then top_k + all_exclude.card else top_k
      let request_k := min request_k col.length
      if request_k = 0 then [] else chromaQuery dist col request_k

theorem gatherStep_eq_append (st : VectorStore) (dist : String → ℚ)
    (excl : Finset String) (k : Nat) (acc : List (String × ℚ)) (t : DocType) :
    gatherStep st dist excl k acc t = acc ++ gatherOne st dist excl k t := by
  rw [gatherStep, gatherOne]
  cases st.colOf t with
  | none => simp
  | some col =>
    dsimp only
    by_cases h0 : col.length = 0
    · rw [if_pos h0, if_pos h0]
      simp
    · rw [if_neg h0, if_neg h0]
      split <;> split
      · simp
      · rfl
      · simp
      · rfl

theorem foldl_gather (st : VectorStore) (dist : String → ℚ) (excl : Finset String)
    (k : Nat) :
    ∀ (ts : List DocType) (acc : List (String × ℚ)),
      ts.foldl (gatherStep st dist excl k) acc =
        acc ++ (ts.map (gatherOne st dist excl k)).flatten := by
  intro ts
  induction ts with
  | nil =>
    intro acc
    simp
  | cons t ts ih =>
    intro acc
    rw [List.foldl_cons, gatherStep_eq_append, ih, List.map_cons, List.flatten_cons,
      List.append_assoc]

theorem countP_fst_in_finset (s : Finset String) :
    ∀ (l : List (String × ℚ)), (l.map (fun q => q.1)).Nodup →
      l.countP (fun q => decide (q.1 ∈ s)) ≤ s.card := by
  intro l hnd
  rw [List.countP_eq_length_filter]
  have hsub : ((l.filter (fun q => decide (q.1 ∈ s))).map (fun q => q.1)).Sublist
      (l.map (fun q => q.1)) := (List.filter_sublist l).map _
  have hnd2 : ((l.filter (fun q => decide (q.1 ∈ s))).map (fun q => q.1)).Nodup :=
    hnd.sublist hsub
  have hsubset : ((l.filter (fun q => decide (q.1 ∈ s))).map (fun q => q.1)).toFinset
      ⊆ s := by
    intro a ha
    simp only [List.mem_toFinset, List.mem_map] at ha
    obtain ⟨q, hq, rfl⟩ := ha
    have := (List.mem_filter.mp hq).2
    simpa using this
  calc (l.filter (fun q => decide (q.1 ∈ s))).length
      = ((l.filter (fun q => decide (q.1 ∈ s))).map (fun q => q.1)).length := by
        rw [List.length_map]
    _ = ((l.filter (fun q => decide (q.1 ∈ s))).map (fun q => q.1)).toFinset.card :=
        (List.toFinset_card_of_nodup hnd2).symm
    _ ≤ s.card := Finset.card_le_card hsubset

theorem countP_chromaQuery_le (st : VectorStore) (dist : String → ℚ)
    (excl : Finset String) (col : List String) (n : Nat) :
    (chromaQuery dist col n).countP (survPair st.doc_index excl) ≤
      col.countP (fun id => decide (id ∉ excl ∧ dictGet st.doc_index id ≠ none)) := by
  rw [chromaQuery]
  have h1 : (((col.map (fun id => (id, dist id))).mergeSort
      (fun a b => decide (a.2 ≤ b.2))).take n).countP (survPair st.doc_index excl) ≤
      ((col.map (fun id => (id, dist id))).mergeSort
        (fun a b => decide (a.2 ≤ b.2))).countP (survPair st.doc_index excl) :=
    (List.take_sublist _ _).countP_le _
  have h2 : ((col.map (fun id => (id, dist id))).mergeSort
      (fun a b => decide (a.2 ≤ b.2))).countP (survPair st.doc_index excl) =
      (col.map (fun id => (id, dist id))).countP (survPair st.doc_index excl) :=
    (List.mergeSort_perm _ _).countP_eq _
  have h3 : (col.map (fun id => (id, dist id))).countP (survPair st.doc_index excl) =
      col.countP (fun id => decide (id ∉ excl ∧ dictGet st.doc_index id ≠ none)) := by
    rw [List.countP_map]
    rfl
  omega

theorem countP_gatherOne_le (st : VectorStore) (dist : String → ℚ)
    (excl : Finset String) (k : Nat) (t : DocType) :
    (gatherOne st dist excl k t).countP (survPair st.doc_index excl) ≤
      availOf st excl t := by
  rw [gatherOne, availOf]
  cases st.colOf t with
  | none => exact Nat.le_refl 0
  | some col =>
    dsimp only
    by_cases h0 : col.length = 0
    · rw [if_pos h0]
      exact Nat.zero_le _
    · rw [if_neg h0]
      split <;> split
      · exact Nat.zero_le _
      · exact countP_chromaQuery_le st dist excl col _
      · exact Nat.zero_le _
      · exact countP_chromaQuery_le st dist excl col _

theorem countP_gatherOne_ge (st : VectorStore) (dist : String → ℚ)
    (excl : Finset String) (k : Nat) (t : DocType)
    (hnd : ∀ col, st.colOf t = some col → col.Nodup)
    (hcov : ∀ col, st.colOf t = some col → ∀ id ∈ col,
      id ∉ excl → dictGet st.doc_index id ≠ none) :
    min k (availOf st excl t) ≤
      (gatherOne st dist excl k t).countP (survPair st.doc_index excl) := by
  rw [gatherOne, availOf]
  cases hcol : st.colOf t with
  | none => simp
  | some col =>
    dsimp only
    have hndc := hnd col hcol
    have hcovc := hcov col hcol
    by_cases h0 : col.length = 0
    · rw [if_pos h0]
      rw [List.length_eq_zero.mp h0]
      simp
    · rw [if_neg h0]
      have hfst : (col.map (fun id => (id, dist id))).map (fun q => q.1) = col := by
        simp [List.map_map, Function.comp_def]
      have hperm : ((col.map (fun id => (id, dist id))).mergeSort
          (fun a b => decide (a.2 ≤ b.2))).Perm (col.map (fun id => (id, dist id))) :=
        List.mergeSort_perm _ _
      have hlensorted : ((col.map (fun id => (id, dist id))).mergeSort
          (fun a b => decide (a.2 ≤ b.2))).length = col.length := by
        rw [hperm.length_eq, List.length_map]
      have hndsorted : (((col.map (fun id => (id, dist id))).mergeSort
          (fun a b => decide (a.2 ≤ b.2))).map (fun q => q.1)).Nodup := by
        rw [(hperm.map (fun q => q.1)).nodup_iff, hfst]
        exact hndc
      have heqsorted : ((col.map (fun id => (id, dist id))).mergeSort
          (fun a b => decide (a.2 ≤ b.2))).countP (survPair st.doc_index excl) =
          col.countP (fun id => decide (id ∉ excl ∧ dictGet st.doc_index id ≠ none)) := by
        rw [hperm.countP_eq, List.countP_map]
        rfl
      set A := if excl ≠ ∅ then k + excl.card else k with hA
      by_cases hrk : A ⊓ col.length = 0
      · rw [if_pos hrk]
        have hk0 : k = 0 := by
          have hA0 : A = 0 := by omega
          rw [hA] at hA0
          by_cases hexc : excl ≠ ∅
          · rw [if_pos hexc] at hA0
            exfalso
            have : excl.card = 0 := by omega
            exact hexc (Finset.card_eq_zero.mp this)
          · rw [if_neg hexc] at hA0
            exact hA0
        simp [hk0]
      · rw [if_neg hrk, chromaQuery]
        by_cases hge : col.length ≤ A ⊓ col.length
        · rw [List.take_of_length_le (by rw [hlensorted]; exact hge), heqsorted]
          exact min_le_right _ _
        · have hAeq : A ⊓ col.length = A := by omega
          have hlenf : (((col.map (fun id => (id, dist id))).mergeSort
              (fun a b => decide (a.2 ≤ b.2))).take (A ⊓ col.length)).length =
              A ⊓ col.length := by
            rw [List.length_take, hlensorted]
            omega
          have hndf : ((((col.map (fun id => (id, dist id))).mergeSort
              (fun a b => decide (a.2 ≤ b.2))).take (A ⊓ col.length)).map
                (fun q => q.1)).Nodup :=
            hndsorted.sublist ((List.take_sublist _ _).map _)
          have hmemcol : ∀ q ∈ ((col.map (fun id => (id, dist id))).mergeSort
              (fun a b => decide (a.2 ≤ b.2))).take (A ⊓ col.length), q.1 ∈ col := by
            intro q hq
            have hq2 := (List.take_sublist _ _).mem hq
            have hq3 := hperm.mem_iff.mp hq2
            rcases List.mem_map.mp hq3 with ⟨id, hid, rfl⟩
            exact hid
          have hsplit := List.length_eq_countP_add_countP
            (survPair st.doc_index excl)
            (((col.map (fun id => (id, dist id))).mergeSort
              (fun a b => decide (a.2 ≤ b.2))).take (A ⊓ col.length))
          have hbound : (((col.map (fun id => (id, dist id))).mergeSort
              (fun a b => decide (a.2 ≤ b.2))).take (A ⊓ col.length)).countP
                (fun a => decide (¬ survPair st.doc_index excl a = true)) ≤
              excl.card := by
            calc (((col.map (fun id => (id, dist id))).mergeSort
                (fun a b => decide (a.2 ≤ b.2))).take (A ⊓ col.length)).countP
                  (fun a => decide (¬ survPair st.doc_index excl a = true))
                ≤ (((col.map (fun id => (id, dist id))).mergeSort
                  (fun a b => decide (a.2 ≤ b.2))).take (A ⊓ col.length)).countP
                    (fun q => decide (q.1 ∈ excl)) := by
                  apply List.countP_mono_left
                  intro q hq hnq
                  simp only [survPair, decide_eq_true_eq] at hnq
                  simp only [decide_eq_true_eq]
                  by_contra hqin
                  exact hnq ⟨hqin, hcovc q.1 (hmemcol q hq) hqin⟩
              _ ≤ excl.card := countP_fst_in_finset excl _ hndf
          have hcard : A = k + excl.card ∨ (excl = ∅ ∧ A = k ∧ excl.card = 0) := by
            rw [hA]
            by_cases hexc : excl ≠ ∅
            · rw [if_pos hexc]
              exact Or.inl rfl
            · rw [if_neg hexc]
              push_neg at hexc
              exact Or.inr ⟨hexc, rfl, by rw [hexc]; exact Finset.card_empty⟩
          have hmin : min k (col.countP
              (fun id => decide (id ∉ excl ∧ dictGet st.doc_index id ≠ none))) ≤ k :=
            min_le_left _ _
          omega

theorem min_sum_pointwise (k : Nat) (f g : DocType → Nat)
    (h1 : ∀ t, min k (g t) ≤ f t) (h2 : ∀ t, f t ≤ g t) :
    ∀ (ts : List DocType),
      min k ((ts.map g).sum) ≤ (ts.map f).sum ∧ (ts.map f).sum ≤ (ts.map g).sum := by
  intro ts
  induction ts with
  | nil => simp
  | cons t ts ih =>
    obtain ⟨iha, ihb⟩ := ih
    have hh1 := h1 t
    have hh2 := h2 t
    simp only [List.map_cons, List.sum_cons]
    omega

/-- C2: with a built index, well-formed (duplicate-free) collections and a doc
index covering every non-excluded stored id, retrieve succeeds and returns
a list sorted by non-increasing similarity, with consecutive 1-indexed
ranks, whose length is exactly the minimum of top_k and the number of
available non-excluded candidates: at most top_k, short of top_k only when
fewer candidates exist, never padded, never an error. -/
theorem retrieve_spec (st : VectorStore) (dist : String → ℚ) (top_k : Nat)
    (dts : Option (List DocType)) (exclude_ids : Finset String)
    (hb : st.is_built = true)
    (hnd : ∀ t col, st.colOf t = some col → col.Nodup)
    (hcov : ∀ t col, st.colOf t = some col → ∀ id ∈ col,
      id ∉ exclude_ids ∪ st.excluded_ids → dictGet st.doc_index id ≠ none) :
    ∃ res, st.retrieve dist top_k dts exclude_ids = .ok res ∧
      List.Pairwise (fun a b : RetrievalResult => b.score ≤ a.score) res ∧
      res.map (fun r => r.rank) = List.range' 1 res.length ∧
      res.length = min top_k (availCount st dts (exclude_ids ∪ st.excluded_ids)) := by
  refine ⟨retrieveValue st dist top_k dts exclude_ids,
    retrieve_eq_ok st dist top_k dts exclude_ids hb, ?_, ?_, ?_⟩
  · rw [retrieveValue]
    apply buildResults_sorted
    have hs := @List.sorted_mergeSort (String × ℚ) (fun a b => decide (a.2 ≤ b.2))
      (by
        intro a b c h1 h2
        simp only [decide_eq_true_eq] at h1 h2 ⊢
        exact le_trans h1 h2)
      (by
        intro a b
        simp only [Bool.or_eq_true, decide_eq_true_eq]
        exact le_total _ _)
      ((targetTypes st dts).foldl
        (gatherStep st dist (exclude_ids ∪ st.excluded_ids) top_k) [])
    exact hs.imp (by intro a b h; simpa using h)
  · rw [retrieveValue]
    exact buildResults_ranks _ _ _ _ 1
  · rw [retrieveValue, buildResults_length]
    have hcands : (targetTypes st dts).foldl
        (gatherStep st dist (exclude_ids ∪ st.excluded_ids) top_k) [] =
        ((targetTypes st dts).map
          (gatherOne st dist (exclude_ids ∪ st.excluded_ids) top_k)).flatten := by
      rw [foldl_gather]
      rfl
    have hpermc := List.mergeSort_perm
      ((targetTypes st dts).foldl
        (gatherStep st dist (exclude_ids ∪ st.excluded_ids) top_k) [])
      (fun a b : String × ℚ => decide (a.2 ≤ b.2))
    have hcount : (((targetTypes st dts).foldl
        (gatherStep st dist (exclude_ids ∪ st.excluded_ids) top_k) []).mergeSort
          (fun a b => decide (a.2 ≤ b.2))).countP
        (survPair st.doc_index (exclude_ids ∪ st.excluded_ids)) =
        ((targetTypes st dts).map (fun t =>
          (gatherOne st dist (exclude_ids ∪ st.excluded_ids) top_k t).countP
            (survPair st.doc_index (exclude_ids ∪ st.excluded_ids)))).sum := by
      rw [hpermc.countP_eq, hcands, List.countP_flatten, List.map_map]
      rfl
    have hbounds := min_sum_pointwise top_k
      (fun t => (gatherOne st dist (exclude_ids ∪ st.excluded_ids) top_k t).countP
        (survPair st.doc_index (exclude_ids ∪ st.excluded_ids)))
      (availOf st (exclude_ids ∪ st.excluded_ids))
      (fun t => countP_gatherOne_ge st dist (exclude_ids ∪ st.excluded_ids) top_k t
        (fun col hcol => hnd t col hcol)
        (fun col hcol id hid hnin => hcov t col hcol id hid hnin))
      (fun t => countP_gatherOne_le st dist (exclude_ids ∪ st.excluded_ids) top_k t)
      (targetTypes st dts)
    obtain ⟨hlo, hhi⟩ := hbounds
    have hsurv : (fun p : String × ℚ =>
        decide (p.1 ∉ exclude_ids ∪ st.excluded_ids ∧
          dictGet st.doc_index p.1 ≠ none)) =
        survPair st.doc_index (exclude_ids ∪ st.excluded_ids) := rfl
    rw [hsurv, hcount, availCount]
    omega

/-- C2 witness: the retrieval contract instantiated on the sample store,
querying the KB partition with top_k = 5. -/
theorem retrieve_spec_witness :
    ∃ res, sampleStore.retrieve sampleDist 5 (some [DocType.KB]) ∅ = .ok res ∧
      List.Pairwise (fun a b : RetrievalResult => b.score ≤ a.score) res ∧
      res.map (fun r => r.rank) = List.range' 1 res.length ∧
      res.length = min 5 (availCount sampleStore (some [DocType.KB])
        (∅ ∪ sampleStore.excluded_ids)) := by
  apply retrieve_spec sampleStore sampleDist 5 (some [DocType.KB]) ∅ rfl
  · intro t col hcol
    cases t
    · rw [show sampleStore.colOf DocType.KB = some ["KB-1", "KB-2"] from rfl] at hcol
      injection hcol with h
      rw [← h]
      decide
    · rw [show sampleStore.colOf DocType.SCRIPT = some ["SC-1"] from rfl] at hcol
      injection hcol with h
      rw [← h]
      decide
    · rw [show sampleStore.colOf DocType.TICKET = none from rfl] at hcol
      exact absurd hcol (by simp)
  · intro t col hcol
    cases t
    · rw [show sampleStore.colOf DocType.KB = some ["KB-1", "KB-2"] from rfl] at hcol
      injection hcol with h
      rw [← h]
      decide
    · rw [show sampleStore.colOf DocType.SCRIPT = some ["SC-1"] from rfl] at hcol
      injection hcol with h
      rw [← h]
      decide
    · rw [show sampleStore.colOf DocType.TICKET = none from rfl] at hcol
      exact absurd hcol (by simp)

/-! Claim C8: the similarity range. -/

/-- C8 evaluation: similarity is 1 minus the best cosine distance without any
clamping, and a cosine distance may exceed 1 (up to 2 for unit vectors),
so check_ticket can return a resolution_similarity of -1/2, outside the
documented [0, 1] range.  Concretely: one KB document at cosine distance
3/2 from the resolution text. -/
theorem check_ticket_similarity_out_of_range :
    ∃ r, gdC4.check_ticket stC4 (fun _ _ => (3 : ℚ)/2) "T-1" = .ok r ∧
      r.resolution_similarity = -(1/2) ∧ r.resolution_similarity < 0 := by
  have hsim : stC4.similarity_to_corpus (fun _ => (3 : ℚ)/2) (some [DocType.KB]) =
      .ok (-(1/2), "KB-SYN-1") := by
    simp [VectorStore.similarity_to_corpus, targetTypes, simStep, VectorStore.colOf,
      dictGet, chromaQuery, bestFold, List.mergeSort, stC4, List.find?]
    norm_num
    decide
  obtain ⟨r0, hr0⟩ := check_ticket_total gdC4 stC4 (fun _ _ => (3 : ℚ)/2) "T-1" rfl
    (by decide)
  have hcopy := hr0
  rw [GapDetector.check_ticket,
    show dictGet gdC4.datastore.ticket_by_number "T-1" = some ticketA from rfl] at hr0
  dsimp only at hr0
  rw [hsim] at hr0
  simp only [Except.ok.injEq] at hr0
  refine ⟨r0, hcopy, ?_, ?_⟩
  · rw [← hr0]
  · rw [← hr0]
    show -(1/2 : ℚ) < 0
    norm_num

end Meridian
